import Mathlib

/-!
# StacksLend lending-pool contract: a shallow embedding

This file embeds the Clarity contract "Stacks Boost - Lending Pool" (the
`stackslend` contract: data vars, maps, public entry points, read-only
queries and private helpers) as executable Lean definitions, together with
a model of its external collaborators:

* STX account balances and the `stx-transfer?` primitive;
* the mock sBTC fungible token's `transfer` (its admin checks always pass
  at the contract's call sites, so only the `ft-transfer?` conditions are
  modelled);
* the price oracle, modelled from the spec as a stored price returned by
  `get-price` (the oracle contract body is not part of the verified
  sources).

Principals are encoded as natural numbers; the contract's own principal is
the distinguished value `contractPrincipal`.  Unsigned Clarity integers are
`Nat`; Clarity's aborting subtraction is `csub`, and `unwrap-panic` of a
failed response is the `.abort` failure.  A public call that returns an
`err` response or aborts discards all of its writes: that transactional
boundary is `publicCall`.
-/

/-- Kinds of failure of (a part of) a public call: `err c` is an `(err uc)`
response value, `abort` is a runtime abort (arithmetic underflow, or
`unwrap-panic` applied to an `err`). -/
inductive Failure where
  | err (code : Nat)
  | abort
deriving Repr, DecidableEq

deriving instance DecidableEq for Except

/-- Clarity unsigned subtraction: aborts the call on underflow. -/
def csub (a b : Nat) : Except Failure Nat :=
  if b ≤ a then .ok (a - b) else .error .abort

/-- `unwrap-panic`: passes `ok` through and turns any failed response into
a runtime abort. -/
def unwrapPanic (e : Except Failure α) : Except Failure α :=
  match e with
  | .ok a => .ok a
  | .error _ => .error .abort

/-- Principals (Stacks addresses) are encoded as naturals. -/
abbrev Principal := Nat

/-- The principal of the lending-pool contract itself
(`(as-contract tx-sender)` inside the contract). -/
def contractPrincipal : Principal := 0

/-- The `DEFAULT_ADMIN` constant (an address literal in the source),
encoded as a principal distinct from the contract. -/
def DEFAULT_ADMIN : Principal := 1

/-- The `DEFAULT_SBTC_TOKEN` constant (`.mock-sbtc-token-v2`). -/
def DEFAULT_SBTC_TOKEN : Principal := 2

/- Error constants of the contract. -/

def ERR_INVALID_WITHDRAW_AMOUNT : Nat := 100

def ERR_EXCEEDED_MAX_BORROW : Nat := 101

def ERR_CANNOT_BE_LIQUIDATED : Nat := 102

def ERR_INVALID_ORACLE : Nat := 104

def ERR_INVALID_SBTC_CONTRACT : Nat := 105

def ERR_INVALID_DEX_CONTRACT : Nat := 106

def ERR_UNAUTHORIZED : Nat := 107

def ERR_PAUSED : Nat := 108

def ERR_INVALID_BORROW_AMOUNT : Nat := 109

def ERR_INVALID_LIQUIDATION : Nat := 110

def ERR_INVALID_DEPOSIT_AMOUNT : Nat := 111

def ERR_INSUFFICIENT_LIQUIDITY : Nat := 112

def ERR_INVALID_PRICE : Nat := 113

/- Protocol constants. -/

def LTV_PERCENTAGE : Nat := 70

def INTEREST_RATE_PERCENTAGE : Nat := 10

def LIQUIDATION_THRESHOLD_PERCENTAGE : Nat := 100

def LIQUIDATION_PENALTY_PERCENTAGE : Nat := 10

def ONE_YEAR_IN_SECS : Nat := 31556952

/-- A row of the `deposits` map: `{ amount: uint, yield-index: uint }`. -/
structure DepositRec where
  amount : Nat
  yieldIndex : Nat
deriving Repr, DecidableEq

/-- A row of the `borrows` map: `{ amount: uint, last-accrued: uint }`. -/
structure BorrowRec where
  amount : Nat
  lastAccrued : Nat
deriving Repr, DecidableEq

/- Association-list maps (Clarity `define-map` tables, keyed by principal).
`mapSet` is insert-or-update, `mapDelete` removes the key. -/

/-- Look a key up in an association list (`map-get?`). -/
def mapGet (m : List (Principal × α)) (k : Principal) : Option α :=
  match m with
  | [] => none
  | (k', v) :: rest => if k' = k then some v else mapGet rest k

/-- Remove every entry with the given key (`map-delete`). -/
def mapDelete (m : List (Principal × α)) (k : Principal) : List (Principal × α) :=
  match m with
  | [] => []
  | (k', v) :: rest =>
    if k' = k then mapDelete rest k else (k', v) :: mapDelete rest k

/-- Insert-or-update an entry (`map-set`): the representation places the
updated entry at the front, which is invisible through `mapGet`. -/
def mapSet (m : List (Principal × α)) (k : Principal) (v : α) :
    List (Principal × α) :=
  (k, v) :: mapDelete m k

/-- The keys of an association list. -/
def mapKeys (m : List (Principal × α)) : List Principal := m.map (·.1)

/-- Each key occurs at most once. -/
def NodupKeys (m : List (Principal × α)) : Prop := (mapKeys m).Nodup

/-- Sum a numeric field over all rows of a table. -/
def sumBy (f : α → Nat) (m : List (Principal × α)) : Nat :=
  (m.map (fun p => f p.2)).sum

/-- The whole world the contract acts on: the contract's data variables and
maps, plus the modelled collaborators (STX ledger, sBTC token ledger, and
the oracle's stored price). -/
structure State where
  totalSbtcCollateral : Nat
  totalStxDeposits : Nat
  totalStxBorrows : Nat
  lastInterestAccrual : Nat
  cumulativeYieldBips : Nat
  admin : Principal
  paused : Bool
  ltvPercentage : Nat
  interestRatePercentage : Nat
  liquidationThresholdPercentage : Nat
  liquidationPenaltyPercentage : Nat
  sbtcToken : Principal
  collateral : List (Principal × Nat)
  deposits : List (Principal × DepositRec)
  borrows : List (Principal × BorrowRec)
  stxBalances : Principal → Nat
  sbtcBalances : Principal → Nat
  oraclePrice : Nat

/-- `stx-transfer?`: fails when the amount is zero, the sender is the
recipient, or the sender's balance is insufficient; otherwise moves the
amount.  (The sender-must-be-`tx-sender` condition holds by construction at
every call site of the contract.) -/
def stxTransfer (amount : Nat) (sender recipient : Principal)
    (bal : Principal → Nat) : Option (Principal → Nat) :=
  if amount = 0 ∨ sender = recipient ∨ bal sender < amount then none
  else some fun p =>
    if p = sender then bal sender - amount
    else if p = recipient then bal recipient + amount
    else bal p

/-- The mock sBTC token's `transfer` at the lending pool's call sites: the
token's `sender == tx-sender` assertion passes by construction there, so
only the `ft-transfer?` conditions remain (zero amount, self-transfer,
insufficient balance). -/
def sbtcTransfer (amount : Nat) (sender recipient : Principal)
    (bal : Principal → Nat) : Option (Principal → Nat) :=
  if amount = 0 ∨ sender = recipient ∨ bal sender < amount then none
  else some fun p =>
    if p = sender then bal sender - amount
    else if p = recipient then bal recipient + amount
    else bal p

/-- `get-current-time`: the contract's time source, a constant `u0`. -/
def getCurrentTime : Nat := 0

/-- `get-contract-balance`: the pool's own STX balance. -/
def getContractBalance (s : State) : Nat := s.stxBalances contractPrincipal

/-- Modelled from the spec: the price-oracle collaborator
(`get-sbtc-stx-price`, a call into the oracle contract, whose body is not
among the verified sources).  Per the spec it returns the current stored
price; a zero value means "unset/invalid" and is rejected by the callers. -/
def getSbtcStxPrice (s : State) : Except Failure Nat := .ok s.oraclePrice

/-- `accrue-interest`: on the first-ever call (`last-interest-accrual` is 0)
just records the time; otherwise computes elapsed time (aborting
subtraction), and if positive capitalizes pool-wide interest into
`total-stx-borrows` and streams it into `cumulative-yield-bips`. -/
def accrueInterest (s : State) : Except Failure State :=
  let currentTime := getCurrentTime
  let lastAccrual := s.lastInterestAccrual
  if lastAccrual = 0 then
    .ok { s with lastInterestAccrual := currentTime }
  else
    match csub currentTime lastAccrual with
    | .error f => .error f
    | .ok dt =>
      if 0 < dt then
        let totalBorrows := s.totalStxBorrows
        let interestNumerator := totalBorrows * s.interestRatePercentage * dt
        let interestDenominator := ONE_YEAR_IN_SECS * 100
        let interest := interestNumerator / interestDenominator
        let totalDeposits := s.totalStxDeposits
        let newYield :=
          if 0 < totalDeposits then interest * 10000 / totalDeposits else 0
        .ok { s with
          lastInterestAccrual := currentTime,
          totalStxBorrows := totalBorrows + interest,
          cumulativeYieldBips := s.cumulativeYieldBips + newYield }
      else .ok s

/-- `calculate-interest`: one account's owed interest since its last
accrual (aborting subtraction for the elapsed time). -/
def calculateInterest (s : State) (principal lastAccrued : Nat) :
    Except Failure Nat :=
  match csub getCurrentTime lastAccrued with
  | .error f => .error f
  | .ok dt =>
    if 0 < dt then
      .ok (principal * (s.interestRatePercentage * dt) / (ONE_YEAR_IN_SECS * 100))
    else .ok 0

/-- `get-pending-yield`: the account's deposit times the gap between the
global yield index and the record's checkpoint, over 10000. -/
def getPendingYield (s : State) (user : Principal) : Except Failure Nat :=
  let deposit := mapGet s.deposits user
  let amountStx := (deposit.map DepositRec.amount).getD 0
  let yieldIndex := (deposit.map DepositRec.yieldIndex).getD 0
  match csub s.cumulativeYieldBips yieldIndex with
  | .error f => .error f
  | .ok delta => .ok (amountStx * delta / 10000)

/-- `get-debt`: stored borrow amount plus per-account interest. -/
def getDebt (s : State) (user : Principal) : Except Failure Nat :=
  let borrow := mapGet s.borrows user
  let amount := (borrow.map BorrowRec.amount).getD 0
  let lastAccrued := (borrow.map BorrowRec.lastAccrued).getD getCurrentTime
  match unwrapPanic (calculateInterest s amount lastAccrued) with
  | .error f => .error f
  | .ok interest => .ok (amount + interest)

/-- `get-collateral`: the account's collateral amount, defaulting to 0. -/
def getCollateral (s : State) (user : Principal) : Nat :=
  (mapGet s.collateral user).getD 0

/-- Body of `deposit-stx` (before the transactional boundary). -/
def depositStxBody (caller : Principal) (amount : Nat) (s : State) :
    Except Failure State :=
  let existing := mapGet s.deposits caller
  let depositedStx := (existing.map DepositRec.amount).getD 0
  if s.paused then .error (.err ERR_PAUSED)
  else if amount = 0 then .error (.err ERR_INVALID_DEPOSIT_AMOUNT)
  else
    match unwrapPanic (accrueInterest s) with
    | .error f => .error f
    | .ok s1 =>
      match stxTransfer amount caller contractPrincipal s1.stxBalances with
      | none => .error (.err 1)
      | some bal =>
        let s2 := { s1 with stxBalances := bal }
        let s3 := { s2 with deposits := (mapSet s2.deposits caller
          ⟨depositedStx + amount, s2.cumulativeYieldBips⟩) }
        .ok { s3 with totalStxDeposits := s3.totalStxDeposits + amount }

/-- Body of `withdraw-stx`.  (`deposited-stx - amount` is guarded by the
`>=` assertion, so plain subtraction agrees with Clarity; the unguarded
subtraction on `total-stx-deposits` uses the aborting `csub`.) -/
def withdrawStxBody (caller : Principal) (amount : Nat) (s : State) :
    Except Failure State :=
  match mapGet s.deposits caller with
  | none => .error (.err ERR_INVALID_WITHDRAW_AMOUNT)
  | some deposit =>
    let depositedStx := deposit.amount
    if s.paused then .error (.err ERR_PAUSED)
    else if amount = 0 then .error (.err ERR_INVALID_WITHDRAW_AMOUNT)
    else if depositedStx < amount then .error (.err ERR_INVALID_WITHDRAW_AMOUNT)
    else
      match unwrapPanic (accrueInterest s) with
      | .error f => .error f
      | .ok s1 =>
        match unwrapPanic (getPendingYield s1 caller) with
        | .error f => .error f
        | .ok pendingYield =>
          let newAmount := depositedStx - amount
          let s2 :=
            if newAmount = 0 then
              { s1 with deposits := mapDelete s1.deposits caller }
            else
              { s1 with deposits := (mapSet s1.deposits caller
                ⟨newAmount, s1.cumulativeYieldBips⟩) }
          match csub s2.totalStxDeposits amount with
          | .error f => .error f
          | .ok newTotal =>
            let s3 := { s2 with totalStxDeposits := newTotal }
            if getContractBalance s3 < amount + pendingYield then
              .error (.err ERR_INSUFFICIENT_LIQUIDITY)
            else
              match stxTransfer (amount + pendingYield) contractPrincipal
                  caller s3.stxBalances with
              | none => .error (.err 1)
              | some bal => .ok { s3 with stxBalances := bal }

/-- The borrow admission limit (`max-borrow` in `borrow-stx`):
`collateral-value * price * ltv-percentage / 100`. -/
def maxBorrow (collateralValue price ltv : Nat) : Nat :=
  collateralValue * price * ltv / 100

/-- Body of `borrow-stx`. -/
def borrowStxBody (caller : Principal) (collateralAmount amountStx : Nat)
    (s : State) : Except Failure State :=
  let existingBorrow := mapGet s.borrows caller
  let existingCollateral := mapGet s.collateral caller
  if s.paused then .error (.err ERR_PAUSED)
  else if amountStx = 0 then .error (.err ERR_INVALID_BORROW_AMOUNT)
  else if collateralAmount = 0 ∧ existingCollateral.getD 0 = 0 then
    .error (.err ERR_EXCEEDED_MAX_BORROW)
  else
    match unwrapPanic (accrueInterest s) with
    | .error f => .error f
    | .ok s1 =>
      let existingCollateralAmount := existingCollateral.getD 0
      let totalCollateral := existingCollateralAmount + collateralAmount
      match unwrapPanic (getSbtcStxPrice s1) with
      | .error f => .error f
      | .ok price =>
        let collateralValue := totalCollateral
        let maxBorrowV := maxBorrow collateralValue price s1.ltvPercentage
        let currentBorrow := (existingBorrow.map BorrowRec.amount).getD 0
        let lastAccrued :=
          (existingBorrow.map BorrowRec.lastAccrued).getD getCurrentTime
        match unwrapPanic (calculateInterest s1 currentBorrow lastAccrued) with
        | .error f => .error f
        | .ok interest =>
          let newBorrow := currentBorrow + interest + amountStx
          if price = 0 then .error (.err ERR_INVALID_PRICE)
          else if maxBorrowV < newBorrow then .error (.err ERR_EXCEEDED_MAX_BORROW)
          else if getContractBalance s1 < amountStx then
            .error (.err ERR_INSUFFICIENT_LIQUIDITY)
          else
            match (if 0 < collateralAmount then
                match sbtcTransfer collateralAmount caller contractPrincipal
                    s1.sbtcBalances with
                | none => .error (.err ERR_INVALID_SBTC_CONTRACT)
                | some sb => .ok { s1 with sbtcBalances := sb }
              else .ok s1 : Except Failure State) with
            | .error f => .error f
            | .ok s2 =>
              match stxTransfer amountStx contractPrincipal caller
                  s2.stxBalances with
              | none => .error (.err 1)
              | some bal =>
                let s3 := { s2 with stxBalances := bal }
                let s4 := { s3 with collateral :=
                  (mapSet s3.collateral caller totalCollateral) }
                let s5 := { s4 with borrows :=
                  (mapSet s4.borrows caller ⟨newBorrow, getCurrentTime⟩) }
                let s6 := { s5 with totalStxBorrows :=
                  (s5.totalStxBorrows + amountStx) }
                .ok (if 0 < collateralAmount then
                    { s6 with totalSbtcCollateral :=
                      (s6.totalSbtcCollateral + collateralAmount) }
                  else s6)

/-- Body of `repay`. -/
def repayBody (caller : Principal) (s : State) : Except Failure State :=
  match mapGet s.borrows caller with
  | none => .error (.err ERR_INVALID_WITHDRAW_AMOUNT)
  | some borrow =>
    let borrowed := borrow.amount
    let lastAccrued := borrow.lastAccrued
    let collateralAmount := (mapGet s.collateral caller).getD 0
    if s.paused then .error (.err ERR_PAUSED)
    else if borrowed = 0 then .error (.err ERR_INVALID_WITHDRAW_AMOUNT)
    else
      match unwrapPanic (calculateInterest s borrowed lastAccrued) with
      | .error f => .error f
      | .ok interest =>
        let totalOwed := borrowed + interest
        match stxTransfer totalOwed caller contractPrincipal s.stxBalances with
        | none => .error (.err 1)
        | some bal =>
          let s1 := { s with stxBalances := bal }
          match (if 0 < collateralAmount then
              match sbtcTransfer collateralAmount contractPrincipal caller
                  s1.sbtcBalances with
              | none => .error (.err ERR_INVALID_SBTC_CONTRACT)
              | some sb => .ok { s1 with sbtcBalances := sb }
            else .ok s1 : Except Failure State) with
          | .error f => .error f
          | .ok s2 =>
            let s3 := { s2 with
              borrows := mapDelete s2.borrows caller,
              collateral := mapDelete s2.collateral caller }
            match csub s3.totalStxBorrows totalOwed with
            | .error f => .error f
            | .ok nb =>
              match csub s3.totalSbtcCollateral collateralAmount with
              | .error f => .error f
              | .ok nc =>
                .ok { s3 with totalStxBorrows := nb, totalSbtcCollateral := nc }

/-- Body of `liquidate`. -/
def liquidateBody (liquidator target : Principal) (s : State) :
    Except Failure State :=
  match mapGet s.borrows target with
  | none => .error (.err ERR_CANNOT_BE_LIQUIDATED)
  | some borrow =>
    match mapGet s.collateral target with
    | none => .error (.err ERR_CANNOT_BE_LIQUIDATED)
    | some collateralAmount =>
      let borrowed := borrow.amount
      let lastAccrued := borrow.lastAccrued
      if s.paused then .error (.err ERR_PAUSED)
      else
        match unwrapPanic (calculateInterest s borrowed lastAccrued) with
        | .error f => .error f
        | .ok interest =>
          let totalOwed := borrowed + interest
          match unwrapPanic (getSbtcStxPrice s) with
          | .error f => .error f
          | .ok price =>
            let collateralValue := collateralAmount * price
            let threshold := s.liquidationThresholdPercentage
            let penalty := s.liquidationPenaltyPercentage
            if price = 0 then .error (.err ERR_INVALID_PRICE)
            else if totalOwed * 100 < collateralValue * threshold then
              .error (.err ERR_CANNOT_BE_LIQUIDATED)
            else
              match csub 100 penalty with
              | .error f => .error f
              | .ok hundredLessPenalty =>
                let repayAmount := totalOwed * hundredLessPenalty / 100
                match stxTransfer repayAmount liquidator contractPrincipal
                    s.stxBalances with
                | none => .error (.err 1)
                | some bal =>
                  let s1 := { s with stxBalances := bal }
                  match sbtcTransfer collateralAmount contractPrincipal
                      liquidator s1.sbtcBalances with
                  | none => .error (.err ERR_INVALID_SBTC_CONTRACT)
                  | some sb =>
                    let s2 := { s1 with sbtcBalances := sb }
                    let s3 := { s2 with
                      borrows := mapDelete s2.borrows target,
                      collateral := mapDelete s2.collateral target }
                    match csub s3.totalStxBorrows totalOwed with
                    | .error f => .error f
                    | .ok nb =>
                      match csub s3.totalSbtcCollateral collateralAmount with
                      | .error f => .error f
                      | .ok nc =>
                        .ok { s3 with
                          totalStxBorrows := nb, totalSbtcCollateral := nc }

/-- Body of `set-paused`. -/
def setPausedBody (caller : Principal) (pausedValue : Bool) (s : State) :
    Except Failure State :=
  if caller = s.admin then .ok { s with paused := pausedValue }
  else .error (.err ERR_UNAUTHORIZED)

/-- Body of `set-admin`. -/
def setAdminBody (caller newAdmin : Principal) (s : State) :
    Except Failure State :=
  if caller = s.admin then .ok { s with admin := newAdmin }
  else .error (.err ERR_UNAUTHORIZED)

/-- Body of `set-params` (bounded parameter updates). -/
def setParamsBody (caller : Principal)
    (newLtv newInterest newThreshold newPenalty : Nat) (s : State) :
    Except Failure State :=
  if caller ≠ s.admin then .error (.err ERR_UNAUTHORIZED)
  else if 90 < newLtv then .error (.err ERR_INVALID_LIQUIDATION)
  else if 100 < newInterest then .error (.err ERR_INVALID_LIQUIDATION)
  else if 150 < newThreshold then .error (.err ERR_INVALID_LIQUIDATION)
  else if 30 < newPenalty then .error (.err ERR_INVALID_LIQUIDATION)
  else .ok { s with
    ltvPercentage := newLtv,
    interestRatePercentage := newInterest,
    liquidationThresholdPercentage := newThreshold,
    liquidationPenaltyPercentage := newPenalty }

/-- Body of `set-sbtc-token`. -/
def setSbtcTokenBody (caller newToken : Principal) (s : State) :
    Except Failure State :=
  if caller = s.admin then .ok { s with sbtcToken := newToken }
  else .error (.err ERR_UNAUTHORIZED)

/-- Result of a public call, as seen by the transaction's sender. -/
inductive PubResult where
  | ok (b : Bool)
  | err (code : Nat)
  | aborted
deriving Repr, DecidableEq

/-- The Clarity transactional boundary of a public function: an `ok` result
commits the body's writes; an `err` response or a runtime abort discards
every write of the call. -/
def publicCall (body : State → Except Failure State) (s : State) :
    PubResult × State :=
  match body s with
  | .ok s' => (.ok true, s')
  | .error (.err c) => (.err c, s)
  | .error .abort => (.aborted, s)

/-- The contract's mutating entry points (public functions), with their
arguments; the caller argument is `tx-sender`. -/
inductive Op where
  | depositStx (caller : Principal) (amount : Nat)
  | withdrawStx (caller : Principal) (amount : Nat)
  | borrowStx (caller : Principal) (collateralAmount amountStx : Nat)
  | repay (caller : Principal)
  | liquidate (caller target : Principal)
  | setPaused (caller : Principal) (pausedValue : Bool)
  | setAdmin (caller newAdmin : Principal)
  | setParams (caller : Principal) (newLtv newInterest newThreshold newPenalty : Nat)
  | setSbtcToken (caller newToken : Principal)

/-- Dispatch an entry point to its body. -/
def opBody : Op → State → Except Failure State
  | .depositStx c a => depositStxBody c a
  | .withdrawStx c a => withdrawStxBody c a
  | .borrowStx c ca a => borrowStxBody c ca a
  | .repay c => repayBody c
  | .liquidate c t => liquidateBody c t
  | .setPaused c v => setPausedBody c v
  | .setAdmin c n => setAdminBody c n
  | .setParams c l i t p => setParamsBody c l i t p
  | .setSbtcToken c n => setSbtcTokenBody c n

/-- Execute one public call against a state. -/
def stepOp (s : State) (op : Op) : PubResult × State :=
  publicCall (opBody op) s

/-- The contract's state right after deployment (data vars at their
declared initial values, maps empty), in a world with the given external
balances and oracle price. -/
def initState (stxBal sbtcBal : Principal → Nat) (price : Nat) : State where
  totalSbtcCollateral := 0
  totalStxDeposits := 0
  totalStxBorrows := 0
  lastInterestAccrual := 0
  cumulativeYieldBips := 0
  admin := DEFAULT_ADMIN
  paused := false
  ltvPercentage := LTV_PERCENTAGE
  interestRatePercentage := INTEREST_RATE_PERCENTAGE
  liquidationThresholdPercentage := LIQUIDATION_THRESHOLD_PERCENTAGE
  liquidationPenaltyPercentage := LIQUIDATION_PENALTY_PERCENTAGE
  sbtcToken := DEFAULT_SBTC_TOKEN
  collateral := []
  deposits := []
  borrows := []
  stxBalances := stxBal
  sbtcBalances := sbtcBal
  oraclePrice := price

/-- States reachable from deployment through any sequence of public calls
(successful or not — a failed call leaves the state unchanged), with the
environment free to move external balances and the oracle price between
calls (an over-approximation of what external parties can do). -/
inductive Reachable : State → Prop where
  | init (stxBal sbtcBal : Principal → Nat) (price : Nat) :
      Reachable (initState stxBal sbtcBal price)
  | step (s : State) (op : Op) : Reachable s → Reachable (stepOp s op).2
  | env (s : State) (stxBal sbtcBal : Principal → Nat) (price : Nat) :
      Reachable s →
      Reachable { s with stxBalances := stxBal, sbtcBalances := sbtcBal,
                         oraclePrice := price }

/-- The inductive invariant of the pool: table sums match the aggregates,
keys are unique, the accrual clock variable is still 0, and every borrow
record's `last-accrued` is 0. -/
structure PoolInv (s : State) : Prop where
  depNodup : NodupKeys s.deposits
  colNodup : NodupKeys s.collateral
  borNodup : NodupKeys s.borrows
  depSum : sumBy DepositRec.amount s.deposits = s.totalStxDeposits
  colSum : sumBy id s.collateral = s.totalSbtcCollateral
  borSum : sumBy BorrowRec.amount s.borrows = s.totalStxBorrows
  lastAcc : s.lastInterestAccrual = 0
  cum0 : s.cumulativeYieldBips = 0
  borLast : ∀ p ∈ s.borrows, (p : Principal × BorrowRec).2.lastAccrued = 0

/-- The sum, over all borrow records, of the principal folded forward to the
current time with the per-account interest formula (`calculate-interest`),
propagating any abort. -/
def foldedDebtSum (s : State) : Except Failure Nat :=
  s.borrows.foldr
    (fun p acc =>
      match unwrapPanic (calculateInterest s p.2.amount p.2.lastAccrued) with
      | .error f => .error f
      | .ok i =>
        match acc with
        | .error f => .error f
        | .ok rest => .ok (p.2.amount + i + rest))
    (.ok 0)

/-- A state with a positive yield gap for account 1: the global index is
100 while account 1's deposit record (10000 units) still has checkpoint 0,
so 100 units of yield are pending. -/
def sYieldGap : State :=
  { initState (fun p => if p = 1 then 1000 else 0) (fun _ => 0) 0 with
    cumulativeYieldBips := 100,
    deposits := [(1, ⟨10000, 0⟩)],
    totalStxDeposits := 10000 }

/-- The scenario state of the pool-wide accrual claim: borrows 10000,
deposits 10000, the default 10 percent rate, no accrual recorded yet. -/
def sScenario : State :=
  { initState (fun _ => 0) (fun _ => 0) 0 with
    totalStxBorrows := 10000,
    totalStxDeposits := 10000 }

/-- A state whose accrual clock variable is nonzero (so `accrue-interest`
aborts on it) but where account 1 has an open, fully backed borrow
position. -/
def sStaleAccrual : State :=
  { initState (fun p => if p = 1 then 100 else 0)
      (fun p => if p = contractPrincipal then 2 else 0) 0 with
    lastInterestAccrual := 5,
    borrows := [(1, ⟨100, 0⟩)],
    collateral := [(1, 2)],
    totalStxBorrows := 100,
    totalSbtcCollateral := 2 }

/-- A paused pool holding a position of account 1 sitting exactly on the
liquidation boundary: owed 100, collateral 1, price 100, threshold 100. -/
def sPausedBoundary : State :=
  { initState (fun _ => 1000) (fun _ => 1000) 100 with
    paused := true,
    borrows := [(1, ⟨100, 0⟩)],
    collateral := [(1, 1)],
    totalStxBorrows := 100,
    totalSbtcCollateral := 1 }

/-- A fresh pool whose own balance is 700 STX, the oracle at 100, with
account 3 already holding 10 units of collateral. -/
def sBoundary : State :=
  { initState (fun p => if p = contractPrincipal then 700 else 0)
      (fun _ => 0) 100 with
    collateral := [(3, 10)],
    totalSbtcCollateral := 10 }

/-- A pool holding exactly the collateral of account 1's position, which
sits exactly on the liquidation boundary: owed 100, collateral 1, price
100, threshold 100. -/
def sBoundaryLiquid : State :=
  { initState (fun _ => 1000)
      (fun p => if p = contractPrincipal then 1 else 0) 100 with
    borrows := [(1, ⟨100, 0⟩)],
    collateral := [(1, 1)],
    totalStxBorrows := 100,
    totalSbtcCollateral := 1 }

/-- The same position one unit below the boundary: owed 99. -/
def sBelowBoundary : State :=
  { initState (fun _ => 1000)
      (fun p => if p = contractPrincipal then 1 else 0) 100 with
    borrows := [(1, ⟨99, 0⟩)],
    collateral := [(1, 1)],
    totalStxBorrows := 99,
    totalSbtcCollateral := 1 }

theorem mapGet_eq_none_iff {m : List (Principal × α)} {k : Principal} :
    mapGet m k = none ↔ ∀ p ∈ m, p.1 ≠ k := by
  induction m with
  | nil => simp [mapGet]
  | cons hd tl ih =>
    obtain ⟨k', v⟩ := hd
    by_cases h : k' = k <;> simp [mapGet, h, ih]

theorem mapDelete_of_get_none {m : List (Principal × α)} {k : Principal}
    (h : mapGet m k = none) : mapDelete m k = m := by
  induction m with
  | nil => simp [mapDelete]
  | cons hd tl ih =>
    obtain ⟨k', v⟩ := hd
    by_cases hk : k' = k
    · simp [mapGet, hk] at h
    · simp only [mapGet, if_neg hk] at h
      simp [mapDelete, hk, ih h]

theorem mem_mapDelete {m : List (Principal × α)} {k : Principal}
    {p : Principal × α} (h : p ∈ mapDelete m k) : p ∈ m := by
  induction m with
  | nil => simp [mapDelete] at h
  | cons hd tl ih =>
    obtain ⟨k', v⟩ := hd
    by_cases hk : k' = k
    · simp only [mapDelete, if_pos hk] at h
      exact List.mem_cons_of_mem _ (ih h)
    · simp only [mapDelete, if_neg hk] at h
      rcases List.mem_cons.mp h with h1 | h2
      · exact h1 ▸ List.mem_cons_self _ _
      · exact List.mem_cons_of_mem _ (ih h2)

theorem mapGet_mem {m : List (Principal × α)} {k : Principal} {v : α}
    (h : mapGet m k = some v) : (k, v) ∈ m := by
  induction m with
  | nil => simp [mapGet] at h
  | cons hd tl ih =>
    obtain ⟨k', w⟩ := hd
    by_cases hk : k' = k
    · simp only [mapGet, if_pos hk] at h
      subst hk
      cases h
      exact List.mem_cons_self _ _
    · simp only [mapGet, if_neg hk] at h
      exact List.mem_cons_of_mem _ (ih h)

theorem mem_keys_mapDelete {m : List (Principal × α)} {k a : Principal}
    (h : a ∈ mapKeys (mapDelete m k)) : a ∈ mapKeys m := by
  simp only [mapKeys, List.mem_map] at h ⊢
  obtain ⟨p, hp, hpa⟩ := h
  exact ⟨p, mem_mapDelete hp, hpa⟩

theorem not_mem_keys_mapDelete {m : List (Principal × α)} {k : Principal} :
    k ∉ mapKeys (mapDelete m k) := by
  induction m with
  | nil => simp [mapDelete, mapKeys]
  | cons hd tl ih =>
    obtain ⟨k', v⟩ := hd
    by_cases hk : k' = k
    · simpa [mapDelete, hk] using ih
    · simp only [mapDelete, if_neg hk, mapKeys, List.map_cons, List.mem_cons]
      rintro (h1 | h2)
      · exact hk h1.symm
      · exact ih h2

theorem nodupKeys_mapDelete {m : List (Principal × α)} {k : Principal}
    (h : NodupKeys m) : NodupKeys (mapDelete m k) := by
  induction m with
  | nil => simpa [mapDelete] using h
  | cons hd tl ih =>
    obtain ⟨k', v⟩ := hd
    simp only [NodupKeys, mapKeys, List.map_cons, List.nodup_cons] at h
    by_cases hk : k' = k
    · simpa [mapDelete, hk] using ih h.2
    · have htl := ih h.2
      simp only [NodupKeys, mapKeys, mapDelete, if_neg hk, List.map_cons,
        List.nodup_cons]
      refine ⟨fun hmem => h.1 ?_, htl⟩
      simpa [mapKeys] using mem_keys_mapDelete (m := tl) (k := k) (a := k')
        (by simpa [mapKeys] using hmem)

theorem nodupKeys_mapSet {m : List (Principal × α)} {k : Principal} {v : α}
    (h : NodupKeys m) : NodupKeys (mapSet m k v) := by
  simp only [NodupKeys, mapSet, mapKeys, List.map_cons, List.nodup_cons]
  exact ⟨not_mem_keys_mapDelete, nodupKeys_mapDelete h⟩

theorem mapGet_mapSet_self {m : List (Principal × α)} {k : Principal} {v : α} :
    mapGet (mapSet m k v) k = some v := by
  simp [mapSet, mapGet]

theorem mapGet_mapDelete_ne {m : List (Principal × α)} {k k' : Principal}
    (h : k' ≠ k) : mapGet (mapDelete m k) k' = mapGet m k' := by
  induction m with
  | nil => simp [mapDelete]
  | cons hd tl ih =>
    obtain ⟨a, w⟩ := hd
    by_cases ha : a = k
    · subst ha
      simp [mapDelete, mapGet, Ne.symm h, ih]
    · by_cases ha' : a = k'
      · simp [mapDelete, ha, mapGet, ha', h]
      · simp [mapDelete, ha, mapGet, ha', ih]

theorem mapGet_mapSet_ne {m : List (Principal × α)} {k k' : Principal} {v : α}
    (h : k' ≠ k) : mapGet (mapSet m k v) k' = mapGet m k' := by
  simp only [mapSet, mapGet, if_neg (Ne.symm h)]
  exact mapGet_mapDelete_ne h

theorem sumBy_mapDelete_add {f : α → Nat} {m : List (Principal × α)}
    {k : Principal} {v : α} (hn : NodupKeys m) (h : mapGet m k = some v) :
    sumBy f (mapDelete m k) + f v = sumBy f m := by
  induction m with
  | nil => simp [mapGet] at h
  | cons hd tl ih =>
    obtain ⟨k', w⟩ := hd
    simp only [NodupKeys, mapKeys, List.map_cons, List.nodup_cons] at hn
    by_cases hk : k' = k
    · subst hk
      simp only [mapGet, if_pos rfl] at h
      cases h
      have hnone : mapGet tl k' = none := by
        rw [mapGet_eq_none_iff]
        intro p hp hpk
        exact hn.1 (by simpa [mapKeys] using List.mem_map.mpr ⟨p, hp, hpk⟩)
      simp [mapDelete, mapDelete_of_get_none hnone, sumBy, Nat.add_comm]
    · simp only [mapGet, if_neg hk] at h
      have := ih hn.2 h
      simp only [mapDelete, if_neg hk, sumBy, List.map_cons, List.sum_cons]
      simp only [sumBy] at this
      omega

theorem sumBy_mapSet_some {f : α → Nat} {m : List (Principal × α)}
    {k : Principal} {v w : α} (hn : NodupKeys m) (h : mapGet m k = some w) :
    sumBy f (mapSet m k v) + f w = f v + sumBy f m := by
  have := sumBy_mapDelete_add (f := f) hn h
  simp only [mapSet, sumBy, List.map_cons, List.sum_cons]
  simp only [sumBy] at this
  omega

theorem sumBy_mapSet_none {f : α → Nat} {m : List (Principal × α)}
    {k : Principal} {v : α} (h : mapGet m k = none) :
    sumBy f (mapSet m k v) = f v + sumBy f m := by
  simp [mapSet, mapDelete_of_get_none h, sumBy]

theorem mem_mapSet {m : List (Principal × α)} {k : Principal} {v : α}
    {p : Principal × α} (h : p ∈ mapSet m k v) : p = (k, v) ∨ p ∈ m := by
  rcases List.mem_cons.mp h with h1 | h2
  · exact Or.inl h1
  · exact Or.inr (mem_mapDelete h2)

theorem sumBy_mapSet (f : α → Nat) (m : List (Principal × α)) (k : Principal)
    (v : α) : sumBy f (mapSet m k v) = f v + sumBy f (mapDelete m k) := by
  simp [mapSet, sumBy]

theorem unwrapPanic_ok {a : α} :
    unwrapPanic (.ok a : Except Failure α) = .ok a := rfl

/-- With the frozen clock, `accrue-interest` on a state whose
`last-interest-accrual` is 0 is the identity (it re-stores 0). -/
theorem accrueInterest_eq_self {s : State} (h : s.lastInterestAccrual = 0) :
    accrueInterest s = .ok s := by
  have hs : { s with lastInterestAccrual := getCurrentTime } = s := by
    cases s
    simp_all [getCurrentTime]
  simp [accrueInterest, h, hs]

/-- With the frozen clock, `accrue-interest` on a state whose
`last-interest-accrual` is nonzero aborts (the elapsed-time subtraction
underflows). -/
theorem accrueInterest_abort {s : State} (h : s.lastInterestAccrual ≠ 0) :
    accrueInterest s = .error .abort := by
  have hlt : ¬ s.lastInterestAccrual ≤ getCurrentTime := by
    simp only [getCurrentTime]
    omega
  simp [accrueInterest, h, csub, hlt]

theorem depositStxBody_inv {s s' : State} {c : Principal} {a : Nat}
    (inv : PoolInv s) (h : depositStxBody c a s = .ok s') : PoolInv s' := by
  unfold depositStxBody at h
  rw [accrueInterest_eq_self inv.lastAcc, unwrapPanic_ok] at h
  split at h
  · exact absurd h (by simp)
  split at h
  · exact absurd h (by simp)
  split at h
  · rename_i f heq
    cases heq
  rename_i s1 heq
  injection heq with heq
  subst heq
  split at h
  · exact absurd h (by simp)
  rename_i bal hbal
  cases h
  rcases hE : mapGet s.deposits c with _ | w
  · refine ⟨nodupKeys_mapSet inv.depNodup, inv.colNodup, inv.borNodup,
      ?_, inv.colSum, inv.borSum, inv.lastAcc, inv.cum0, inv.borLast⟩
    have hd := inv.depSum
    simp only [sumBy_mapSet, mapDelete_of_get_none hE, hE,
      Option.map_none', Option.getD_none]
    omega
  · refine ⟨nodupKeys_mapSet inv.depNodup, inv.colNodup, inv.borNodup,
      ?_, inv.colSum, inv.borSum, inv.lastAcc, inv.cum0, inv.borLast⟩
    have hd := inv.depSum
    have h2 := sumBy_mapDelete_add (f := DepositRec.amount)
      inv.depNodup hE
    simp only [sumBy_mapSet, hE, Option.map_some', Option.getD_some]
    omega

theorem csub_ok {a b n : Nat} (h : csub a b = .ok n) : b ≤ a ∧ n = a - b := by
  unfold csub at h
  split at h
  · cases h
    exact ⟨by assumption, rfl⟩
  · cases h

theorem calculateInterest_at_zero (s : State) (p : Nat) :
    calculateInterest s p 0 = .ok 0 := by
  simp [calculateInterest, csub, getCurrentTime]

theorem withdrawStxBody_inv {s s' : State} {c : Principal} {a : Nat}
    (inv : PoolInv s) (h : withdrawStxBody c a s = .ok s') : PoolInv s' := by
  have hacc := accrueInterest_eq_self inv.lastAcc
  rcases heqD : mapGet s.deposits c with _ | dep
  · simp [withdrawStxBody, heqD] at h
  by_cases hp : s.paused
  · simp [withdrawStxBody, heqD, hp] at h
  by_cases ha0 : a = 0
  · simp [withdrawStxBody, heqD, hp, ha0] at h
  by_cases hlt : dep.amount < a
  · simp [withdrawStxBody, heqD, hp, ha0, hlt] at h
  rcases heqPy : getPendingYield s c with f | py
  · simp [withdrawStxBody, heqD, hp, ha0, hlt, hacc, unwrapPanic_ok, heqPy,
      unwrapPanic] at h
  by_cases hz : dep.amount - a = 0
  · rcases heqNt : csub s.totalStxDeposits a with f | nt
    · simp [withdrawStxBody, heqD, hp, ha0, hlt, hacc, unwrapPanic_ok, heqPy,
        hz, heqNt] at h
    obtain ⟨hle, hnt⟩ := csub_ok heqNt
    by_cases hliq : s.stxBalances contractPrincipal < a + py
    · simp [withdrawStxBody, heqD, hp, ha0, hlt, hacc, unwrapPanic_ok, heqPy,
        hz, heqNt, getContractBalance, hliq] at h
    rcases heqT : stxTransfer (a + py) contractPrincipal c s.stxBalances
      with _ | bal
    · simp [withdrawStxBody, heqD, hp, ha0, hlt, hacc, unwrapPanic_ok, heqPy,
        hz, heqNt, getContractBalance, hliq, heqT] at h
    simp only [withdrawStxBody, heqD, hp, ha0, hlt, hacc, unwrapPanic_ok, heqPy,
      hz, heqNt, getContractBalance, hliq, heqT, if_neg, if_pos,
      Bool.false_eq_true, if_false, Except.ok.injEq] at h
    subst h
    refine ⟨nodupKeys_mapDelete inv.depNodup, inv.colNodup, inv.borNodup,
      ?_, inv.colSum, inv.borSum, inv.lastAcc, inv.cum0, inv.borLast⟩
    have hsum := sumBy_mapDelete_add (f := DepositRec.amount) inv.depNodup heqD
    have hd := inv.depSum
    show sumBy DepositRec.amount (mapDelete s.deposits c) = nt
    omega
  · rcases heqNt : csub s.totalStxDeposits a with f | nt
    · simp [withdrawStxBody, heqD, hp, ha0, hlt, hacc, unwrapPanic_ok, heqPy,
        hz, heqNt] at h
    obtain ⟨hle, hnt⟩ := csub_ok heqNt
    by_cases hliq : s.stxBalances contractPrincipal < a + py
    · simp [withdrawStxBody, heqD, hp, ha0, hlt, hacc, unwrapPanic_ok, heqPy,
        hz, heqNt, getContractBalance, hliq] at h
    rcases heqT : stxTransfer (a + py) contractPrincipal c s.stxBalances
      with _ | bal
    · simp [withdrawStxBody, heqD, hp, ha0, hlt, hacc, unwrapPanic_ok, heqPy,
        hz, heqNt, getContractBalance, hliq, heqT] at h
    simp only [withdrawStxBody, heqD, hp, ha0, hlt, hacc, unwrapPanic_ok, heqPy,
      hz, heqNt, getContractBalance, hliq, heqT, if_neg, if_pos,
      Bool.false_eq_true, if_false, Except.ok.injEq] at h
    subst h
    refine ⟨nodupKeys_mapSet inv.depNodup, inv.colNodup, inv.borNodup,
      ?_, inv.colSum, inv.borSum, inv.lastAcc, inv.cum0, inv.borLast⟩
    have hsum := sumBy_mapDelete_add (f := DepositRec.amount) inv.depNodup heqD
    have hd := inv.depSum
    show sumBy DepositRec.amount
      (mapSet s.deposits c ⟨dep.amount - a, s.cumulativeYieldBips⟩) = nt
    rw [sumBy_mapSet]
    show dep.amount - a + sumBy DepositRec.amount (mapDelete s.deposits c) = nt
    omega

theorem sumById_mapDelete_add {m : List (Principal × Nat)} {k : Principal}
    {v : Nat} (hn : NodupKeys m) (h : mapGet m k = some v) :
    sumBy id (mapDelete m k) + v = sumBy id m := by
  simpa using sumBy_mapDelete_add (f := id) hn h

theorem borrowStxBody_inv {s s' : State} {c : Principal} {ca aStx : Nat}
    (inv : PoolInv s) (h : borrowStxBody c ca aStx s = .ok s') : PoolInv s' := by
  have hacc := accrueInterest_eq_self inv.lastAcc
  by_cases hp : s.paused
  · simp [borrowStxBody, hp] at h
  by_cases ha0 : aStx = 0
  · simp [borrowStxBody, hp, ha0] at h
  rcases hC : mapGet s.collateral c with _ | w
  · by_cases hca : 0 < ca
    swap
    · simp [borrowStxBody, hp, ha0, hC, show ca = 0 by omega] at h
    have hcane : ¬ ca = 0 := by omega
    rcases hB : mapGet s.borrows c with _ | br
    · by_cases hpz : s.oraclePrice = 0
      · simp [borrowStxBody, hp, ha0, hC, hcane, hca, hB, hacc, unwrapPanic_ok,
          getSbtcStxPrice, getCurrentTime, calculateInterest_at_zero, hpz] at h
      rcases heqSb : sbtcTransfer ca c contractPrincipal s.sbtcBalances
        with _ | sb
      · simp [borrowStxBody, hp, ha0, hC, hcane, hca, hB, hacc, unwrapPanic_ok,
          getSbtcStxPrice, getCurrentTime, calculateInterest_at_zero, hpz,
          getContractBalance, heqSb] at h
        all_goals repeat' split at h
        all_goals exact absurd h (by simp)
      rcases heqT : stxTransfer aStx contractPrincipal c s.stxBalances
        with _ | bal
      · simp [borrowStxBody, hp, ha0, hC, hcane, hca, hB, hacc, unwrapPanic_ok,
          getSbtcStxPrice, getCurrentTime, calculateInterest_at_zero, hpz,
          getContractBalance, heqSb, heqT] at h
        all_goals repeat' split at h
        all_goals exact absurd h (by simp)
      simp [borrowStxBody, hp, ha0, hC, hcane, hca, hB, hacc, unwrapPanic_ok,
        getSbtcStxPrice, getCurrentTime, calculateInterest_at_zero, hpz,
        getContractBalance, heqSb, heqT] at h
      split at h
      · exact absurd h (by simp)
      split at h
      · exact absurd h (by simp)
      rw [Except.ok.injEq] at h
      subst h
      refine ⟨inv.depNodup, nodupKeys_mapSet inv.colNodup,
        nodupKeys_mapSet inv.borNodup, inv.depSum, ?_, ?_, inv.lastAcc, inv.cum0, ?_⟩
      · have hc2 := inv.colSum
        simp only [sumBy_mapSet, mapDelete_of_get_none hC, id_eq]
        omega
      · have hb2 := inv.borSum
        simp only [sumBy_mapSet, mapDelete_of_get_none hB]
        omega
      · intro p hp2
        rcases mem_mapSet hp2 with h1 | h2
        · subst h1
          rfl
        · exact inv.borLast p h2
    · have hbr0 : br.lastAccrued = 0 := inv.borLast _ (mapGet_mem hB)
      by_cases hpz : s.oraclePrice = 0
      · simp [borrowStxBody, hp, ha0, hC, hcane, hca, hB, hbr0, hacc,
          unwrapPanic_ok, getSbtcStxPrice, getCurrentTime,
          calculateInterest_at_zero, hpz] at h
      rcases heqSb : sbtcTransfer ca c contractPrincipal s.sbtcBalances
        with _ | sb
      · simp [borrowStxBody, hp, ha0, hC, hcane, hca, hB, hbr0, hacc,
          unwrapPanic_ok, getSbtcStxPrice, getCurrentTime,
          calculateInterest_at_zero, hpz, getContractBalance, heqSb] at h
        all_goals repeat' split at h
        all_goals exact absurd h (by simp)
      rcases heqT : stxTransfer aStx contractPrincipal c s.stxBalances
        with _ | bal
      · simp [borrowStxBody, hp, ha0, hC, hcane, hca, hB, hbr0, hacc,
          unwrapPanic_ok, getSbtcStxPrice, getCurrentTime,
          calculateInterest_at_zero, hpz, getContractBalance, heqSb, heqT] at h
        all_goals repeat' split at h
        all_goals exact absurd h (by simp)
      simp [borrowStxBody, hp, ha0, hC, hcane, hca, hB, hbr0, hacc,
        unwrapPanic_ok, getSbtcStxPrice, getCurrentTime,
        calculateInterest_at_zero, hpz, getContractBalance, heqSb, heqT] at h
      split at h
      · exact absurd h (by simp)
      split at h
      · exact absurd h (by simp)
      rw [Except.ok.injEq] at h
      subst h
      refine ⟨inv.depNodup, nodupKeys_mapSet inv.colNodup,
        nodupKeys_mapSet inv.borNodup, inv.depSum, ?_, ?_, inv.lastAcc, inv.cum0, ?_⟩
      · have hc2 := inv.colSum
        simp only [sumBy_mapSet, mapDelete_of_get_none hC, id_eq]
        omega
      · have hb2 := inv.borSum
        have hdel := sumBy_mapDelete_add (f := BorrowRec.amount) inv.borNodup hB
        simp only [sumBy_mapSet]
        omega
      · intro p hp2
        rcases mem_mapSet hp2 with h1 | h2
        · subst h1
          rfl
        · exact inv.borLast p h2
  · by_cases hcond : ca = 0 ∧ w = 0
    · simp [borrowStxBody, hp, ha0, hC, hcond] at h
    rcases hB : mapGet s.borrows c with _ | br
    · by_cases hpz : s.oraclePrice = 0
      · simp [borrowStxBody, hp, ha0, hC, hcond, hB, hacc, unwrapPanic_ok,
          getSbtcStxPrice, getCurrentTime, calculateInterest_at_zero, hpz] at h
      by_cases hca : 0 < ca
      · rcases heqSb : sbtcTransfer ca c contractPrincipal s.sbtcBalances
          with _ | sb
        · simp [borrowStxBody, hp, ha0, hC, hcond, hca, hB, hacc,
            unwrapPanic_ok, getSbtcStxPrice, getCurrentTime,
            calculateInterest_at_zero, hpz, getContractBalance, heqSb] at h
          all_goals repeat' split at h
          all_goals exact absurd h (by simp)
        rcases heqT : stxTransfer aStx contractPrincipal c s.stxBalances
          with _ | bal
        · simp [borrowStxBody, hp, ha0, hC, hcond, hca, hB, hacc,
            unwrapPanic_ok, getSbtcStxPrice, getCurrentTime,
            calculateInterest_at_zero, hpz, getContractBalance, heqSb, heqT] at h
          all_goals repeat' split at h
          all_goals exact absurd h (by simp)
        simp [borrowStxBody, hp, ha0, hC, hcond, hca, hB, hacc, unwrapPanic_ok,
          getSbtcStxPrice, getCurrentTime, calculateInterest_at_zero, hpz,
          getContractBalance, heqSb, heqT] at h
        split at h
        · exact absurd h (by simp)
        split at h
        · exact absurd h (by simp)
        rw [Except.ok.injEq] at h
        subst h
        refine ⟨inv.depNodup, nodupKeys_mapSet inv.colNodup,
          nodupKeys_mapSet inv.borNodup, inv.depSum, ?_, ?_, inv.lastAcc, inv.cum0, ?_⟩
        · have hc2 := inv.colSum
          have hdel := sumById_mapDelete_add inv.colNodup hC
          simp only [sumBy_mapSet, id_eq]
          omega
        · have hb2 := inv.borSum
          simp only [sumBy_mapSet, mapDelete_of_get_none hB]
          omega
        · intro p hp2
          rcases mem_mapSet hp2 with h1 | h2
          · subst h1
            rfl
          · exact inv.borLast p h2
      · rcases heqT : stxTransfer aStx contractPrincipal c s.stxBalances
          with _ | bal
        · simp [borrowStxBody, hp, ha0, hC, hcond, hca, hB, hacc,
            unwrapPanic_ok, getSbtcStxPrice, getCurrentTime,
            calculateInterest_at_zero, hpz, getContractBalance, heqT] at h
          all_goals repeat' split at h
          all_goals exact absurd h (by simp)
        simp [borrowStxBody, hp, ha0, hC, hcond, hca, hB, hacc, unwrapPanic_ok,
          getSbtcStxPrice, getCurrentTime, calculateInterest_at_zero, hpz,
          getContractBalance, heqT] at h
        split at h
        · exact absurd h (by simp)
        split at h
        · exact absurd h (by simp)
        rw [Except.ok.injEq] at h
        subst h
        refine ⟨inv.depNodup, nodupKeys_mapSet inv.colNodup,
          nodupKeys_mapSet inv.borNodup, inv.depSum, ?_, ?_, inv.lastAcc, inv.cum0, ?_⟩
        · have hc2 := inv.colSum
          have hdel := sumById_mapDelete_add inv.colNodup hC
          simp only [sumBy_mapSet, id_eq]
          omega
        · have hb2 := inv.borSum
          simp only [sumBy_mapSet, mapDelete_of_get_none hB]
          omega
        · intro p hp2
          rcases mem_mapSet hp2 with h1 | h2
          · subst h1
            rfl
          · exact inv.borLast p h2
    · have hbr0 : br.lastAccrued = 0 := inv.borLast _ (mapGet_mem hB)
      by_cases hpz : s.oraclePrice = 0
      · simp [borrowStxBody, hp, ha0, hC, hcond, hB, hbr0, hacc, unwrapPanic_ok,
          getSbtcStxPrice, getCurrentTime, calculateInterest_at_zero, hpz] at h
      by_cases hca : 0 < ca
      · rcases heqSb : sbtcTransfer ca c contractPrincipal s.sbtcBalances
          with _ | sb
        · simp [borrowStxBody, hp, ha0, hC, hcond, hca, hB, hbr0, hacc,
            unwrapPanic_ok, getSbtcStxPrice, getCurrentTime,
            calculateInterest_at_zero, hpz, getContractBalance, heqSb] at h
          all_goals repeat' split at h
          all_goals exact absurd h (by simp)
        rcases heqT : stxTransfer aStx contractPrincipal c s.stxBalances
          with _ | bal
        · simp [borrowStxBody, hp, ha0, hC, hcond, hca, hB, hbr0, hacc,
            unwrapPanic_ok, getSbtcStxPrice, getCurrentTime,
            calculateInterest_at_zero, hpz, getContractBalance, heqSb, heqT] at h
          all_goals repeat' split at h
          all_goals exact absurd h (by simp)
        simp [borrowStxBody, hp, ha0, hC, hcond, hca, hB, hbr0, hacc,
          unwrapPanic_ok, getSbtcStxPrice, getCurrentTime,
          calculateInterest_at_zero, hpz, getContractBalance, heqSb, heqT] at h
        split at h
        · exact absurd h (by simp)
        split at h
        · exact absurd h (by simp)
        rw [Except.ok.injEq] at h
        subst h
        refine ⟨inv.depNodup, nodupKeys_mapSet inv.colNodup,
          nodupKeys_mapSet inv.borNodup, inv.depSum, ?_, ?_, inv.lastAcc, inv.cum0, ?_⟩
        · have hc2 := inv.colSum
          have hdel := sumById_mapDelete_add inv.colNodup hC
          simp only [sumBy_mapSet, id_eq]
          omega
        · have hb2 := inv.borSum
          have hdel := sumBy_mapDelete_add (f := BorrowRec.amount) inv.borNodup hB
          simp only [sumBy_mapSet]
          omega
        · intro p hp2
          rcases mem_mapSet hp2 with h1 | h2
          · subst h1
            rfl
          · exact inv.borLast p h2
      · rcases heqT : stxTransfer aStx contractPrincipal c s.stxBalances
          with _ | bal
        · simp [borrowStxBody, hp, ha0, hC, hcond, hca, hB, hbr0, hacc,
            unwrapPanic_ok, getSbtcStxPrice, getCurrentTime,
            calculateInterest_at_zero, hpz, getContractBalance, heqT] at h
          all_goals repeat' split at h
          all_goals exact absurd h (by simp)
        simp [borrowStxBody, hp, ha0, hC, hcond, hca, hB, hbr0, hacc,
          unwrapPanic_ok, getSbtcStxPrice, getCurrentTime,
          calculateInterest_at_zero, hpz, getContractBalance, heqT] at h
        split at h
        · exact absurd h (by simp)
        split at h
        · exact absurd h (by simp)
        rw [Except.ok.injEq] at h
        subst h
        refine ⟨inv.depNodup, nodupKeys_mapSet inv.colNodup,
          nodupKeys_mapSet inv.borNodup, inv.depSum, ?_, ?_, inv.lastAcc, inv.cum0, ?_⟩
        · have hc2 := inv.colSum
          have hdel := sumById_mapDelete_add inv.colNodup hC
          simp only [sumBy_mapSet, id_eq]
          omega
        · have hb2 := inv.borSum
          have hdel := sumBy_mapDelete_add (f := BorrowRec.amount) inv.borNodup hB
          simp only [sumBy_mapSet]
          omega
        · intro p hp2
          rcases mem_mapSet hp2 with h1 | h2
          · subst h1
            rfl
          · exact inv.borLast p h2

theorem csub_zero (a : Nat) : csub a 0 = .ok a := by
  simp [csub]

theorem repayBody_inv {s s' : State} {c : Principal}
    (inv : PoolInv s) (h : repayBody c s = .ok s') : PoolInv s' := by
  rcases hB : mapGet s.borrows c with _ | borrow
  · simp [repayBody, hB] at h
  have hbr0 : borrow.lastAccrued = 0 := inv.borLast _ (mapGet_mem hB)
  by_cases hp : s.paused
  · simp [repayBody, hB, hp] at h
  by_cases hb0 : borrow.amount = 0
  · simp [repayBody, hB, hp, hb0] at h
  rcases heqT : stxTransfer borrow.amount c contractPrincipal s.stxBalances
    with _ | bal
  · simp [repayBody, hB, hbr0, hp, hb0, unwrapPanic_ok,
      calculateInterest_at_zero, heqT] at h
  have hdelB := sumBy_mapDelete_add (f := BorrowRec.amount) inv.borNodup hB
  have hb2 := inv.borSum
  have hc2 := inv.colSum
  rcases hC : mapGet s.collateral c with _ | w
  · rcases heqNb : csub s.totalStxBorrows borrow.amount with f | nb
    · simp [repayBody, hB, hbr0, hp, hb0, unwrapPanic_ok,
        calculateInterest_at_zero, heqT, hC, heqNb] at h
    obtain ⟨hleNb, hnb⟩ := csub_ok heqNb
    simp [repayBody, hB, hbr0, hp, hb0, unwrapPanic_ok,
      calculateInterest_at_zero, heqT, hC, heqNb, csub_zero] at h
    subst h
    refine ⟨inv.depNodup, nodupKeys_mapDelete inv.colNodup,
      nodupKeys_mapDelete inv.borNodup, inv.depSum, ?_, ?_, inv.lastAcc, inv.cum0, ?_⟩
    · simp only [mapDelete_of_get_none hC]
      exact inv.colSum
    · dsimp only
      omega
    · intro p hp2
      exact inv.borLast p (mem_mapDelete hp2)
  · have hdelC := sumById_mapDelete_add inv.colNodup hC
    by_cases hw : 0 < w
    · rcases heqSb : sbtcTransfer w contractPrincipal c s.sbtcBalances
        with _ | sb
      · simp [repayBody, hB, hbr0, hp, hb0, unwrapPanic_ok,
          calculateInterest_at_zero, heqT, hC, hw, heqSb] at h
      rcases heqNb : csub s.totalStxBorrows borrow.amount with f | nb
      · simp [repayBody, hB, hbr0, hp, hb0, unwrapPanic_ok,
          calculateInterest_at_zero, heqT, hC, hw, heqSb, heqNb] at h
      obtain ⟨hleNb, hnb⟩ := csub_ok heqNb
      rcases heqNc : csub s.totalSbtcCollateral w with f | nc
      · simp [repayBody, hB, hbr0, hp, hb0, unwrapPanic_ok,
          calculateInterest_at_zero, heqT, hC, hw, heqSb, heqNb, heqNc] at h
      obtain ⟨hleNc, hnc⟩ := csub_ok heqNc
      simp [repayBody, hB, hbr0, hp, hb0, unwrapPanic_ok,
        calculateInterest_at_zero, heqT, hC, hw, heqSb, heqNb, heqNc] at h
      subst h
      refine ⟨inv.depNodup, nodupKeys_mapDelete inv.colNodup,
        nodupKeys_mapDelete inv.borNodup, inv.depSum, ?_, ?_, inv.lastAcc, inv.cum0, ?_⟩
      · dsimp only
        omega
      · dsimp only
        omega
      · intro p hp2
        exact inv.borLast p (mem_mapDelete hp2)
    · have hw0 : w = 0 := by omega
      rcases heqNb : csub s.totalStxBorrows borrow.amount with f | nb
      · simp [repayBody, hB, hbr0, hp, hb0, unwrapPanic_ok,
          calculateInterest_at_zero, heqT, hC, hw0, heqNb] at h
      obtain ⟨hleNb, hnb⟩ := csub_ok heqNb
      simp [repayBody, hB, hbr0, hp, hb0, unwrapPanic_ok,
        calculateInterest_at_zero, heqT, hC, hw0, heqNb, csub_zero] at h
      subst h
      refine ⟨inv.depNodup, nodupKeys_mapDelete inv.colNodup,
        nodupKeys_mapDelete inv.borNodup, inv.depSum, ?_, ?_, inv.lastAcc, inv.cum0, ?_⟩
      · dsimp only
        omega
      · dsimp only
        omega
      · intro p hp2
        exact inv.borLast p (mem_mapDelete hp2)

theorem liquidateBody_inv {s s' : State} {liq target : Principal}
    (inv : PoolInv s) (h : liquidateBody liq target s = .ok s') : PoolInv s' := by
  rcases hB : mapGet s.borrows target with _ | borrow
  · simp [liquidateBody, hB] at h
  rcases hC : mapGet s.collateral target with _ | w
  · simp [liquidateBody, hB, hC] at h
  have hbr0 : borrow.lastAccrued = 0 := inv.borLast _ (mapGet_mem hB)
  by_cases hp : s.paused
  · simp [liquidateBody, hB, hC, hp] at h
  by_cases hpz : s.oraclePrice = 0
  · simp [liquidateBody, hB, hC, hbr0, hp, unwrapPanic_ok,
      calculateInterest_at_zero, getSbtcStxPrice, hpz] at h
  have hdelB := sumBy_mapDelete_add (f := BorrowRec.amount) inv.borNodup hB
  have hdelC := sumById_mapDelete_add inv.colNodup hC
  have hb2 := inv.borSum
  have hc2 := inv.colSum
  rcases heqP : csub 100 s.liquidationPenaltyPercentage with f | hmp
  · simp [liquidateBody, hB, hC, hbr0, hp, unwrapPanic_ok,
      calculateInterest_at_zero, getSbtcStxPrice, hpz, heqP] at h
    split at h
    · exact absurd h (by simp)
    · exact absurd h (by simp)
  rcases heqT : stxTransfer (borrow.amount * hmp / 100) liq contractPrincipal
      s.stxBalances with _ | bal
  · simp [liquidateBody, hB, hC, hbr0, hp, unwrapPanic_ok,
      calculateInterest_at_zero, getSbtcStxPrice, hpz, heqP, heqT] at h
    split at h
    · exact absurd h (by simp)
    · exact absurd h (by simp)
  rcases heqSb : sbtcTransfer w contractPrincipal liq s.sbtcBalances
    with _ | sb
  · simp [liquidateBody, hB, hC, hbr0, hp, unwrapPanic_ok,
      calculateInterest_at_zero, getSbtcStxPrice, hpz, heqP, heqT, heqSb] at h
    split at h
    · exact absurd h (by simp)
    · exact absurd h (by simp)
  rcases heqNb : csub s.totalStxBorrows borrow.amount with f | nb
  · simp [liquidateBody, hB, hC, hbr0, hp, unwrapPanic_ok,
      calculateInterest_at_zero, getSbtcStxPrice, hpz, heqP, heqT, heqSb,
      heqNb] at h
    split at h
    · exact absurd h (by simp)
    · exact absurd h (by simp)
  obtain ⟨hleNb, hnb⟩ := csub_ok heqNb
  rcases heqNc : csub s.totalSbtcCollateral w with f | nc
  · simp [liquidateBody, hB, hC, hbr0, hp, unwrapPanic_ok,
      calculateInterest_at_zero, getSbtcStxPrice, hpz, heqP, heqT, heqSb,
      heqNb, heqNc] at h
    split at h
    · exact absurd h (by simp)
    · exact absurd h (by simp)
  obtain ⟨hleNc, hnc⟩ := csub_ok heqNc
  simp [liquidateBody, hB, hC, hbr0, hp, unwrapPanic_ok,
    calculateInterest_at_zero, getSbtcStxPrice, hpz, heqP, heqT, heqSb,
    heqNb, heqNc] at h
  split at h
  · exact absurd h (by simp)
  rw [Except.ok.injEq] at h
  subst h
  refine ⟨inv.depNodup, nodupKeys_mapDelete inv.colNodup,
    nodupKeys_mapDelete inv.borNodup, inv.depSum, ?_, ?_, inv.lastAcc, inv.cum0, ?_⟩
  · dsimp only
    omega
  · dsimp only
    omega
  · intro p hp2
    exact inv.borLast p (mem_mapDelete hp2)

theorem setPausedBody_inv {s s' : State} {c : Principal} {v : Bool}
    (inv : PoolInv s) (h : setPausedBody c v s = .ok s') : PoolInv s' := by
  unfold setPausedBody at h
  split at h
  · cases h
    exact ⟨inv.depNodup, inv.colNodup, inv.borNodup, inv.depSum, inv.colSum,
      inv.borSum, inv.lastAcc, inv.cum0, inv.borLast⟩
  · cases h

theorem setAdminBody_inv {s s' : State} {c n : Principal}
    (inv : PoolInv s) (h : setAdminBody c n s = .ok s') : PoolInv s' := by
  unfold setAdminBody at h
  split at h
  · cases h
    exact ⟨inv.depNodup, inv.colNodup, inv.borNodup, inv.depSum, inv.colSum,
      inv.borSum, inv.lastAcc, inv.cum0, inv.borLast⟩
  · cases h

theorem setParamsBody_inv {s s' : State} {c : Principal} {l i t p : Nat}
    (inv : PoolInv s) (h : setParamsBody c l i t p s = .ok s') : PoolInv s' := by
  unfold setParamsBody at h
  split at h
  · cases h
  split at h
  · cases h
  split at h
  · cases h
  split at h
  · cases h
  split at h
  · cases h
  cases h
  exact ⟨inv.depNodup, inv.colNodup, inv.borNodup, inv.depSum, inv.colSum,
    inv.borSum, inv.lastAcc, inv.cum0, inv.borLast⟩

theorem setSbtcTokenBody_inv {s s' : State} {c n : Principal}
    (inv : PoolInv s) (h : setSbtcTokenBody c n s = .ok s') : PoolInv s' := by
  unfold setSbtcTokenBody at h
  split at h
  · cases h
    exact ⟨inv.depNodup, inv.colNodup, inv.borNodup, inv.depSum, inv.colSum,
      inv.borSum, inv.lastAcc, inv.cum0, inv.borLast⟩
  · cases h

/-- One public call preserves the pool invariant (failed calls roll back). -/
theorem stepOp_snd_inv {s : State} (inv : PoolInv s) (op : Op) :
    PoolInv (stepOp s op).2 := by
  rcases hb : opBody op s with f | s1
  · have h2 : (stepOp s op).2 = s := by
      unfold stepOp publicCall
      rw [hb]
      cases f <;> rfl
    rw [h2]
    exact inv
  · have h2 : (stepOp s op).2 = s1 := by
      unfold stepOp publicCall
      rw [hb]
    rw [h2]
    cases op with
    | depositStx c a => exact depositStxBody_inv inv hb
    | withdrawStx c a => exact withdrawStxBody_inv inv hb
    | borrowStx c ca a => exact borrowStxBody_inv inv hb
    | repay c => exact repayBody_inv inv hb
    | liquidate c t => exact liquidateBody_inv inv hb
    | setPaused c v => exact setPausedBody_inv inv hb
    | setAdmin c n => exact setAdminBody_inv inv hb
    | setParams c l i t p => exact setParamsBody_inv inv hb
    | setSbtcToken c n => exact setSbtcTokenBody_inv inv hb

/-- Every reachable state satisfies the pool invariant. -/
theorem reachable_poolInv {s : State} (h : Reachable s) : PoolInv s := by
  induction h with
  | init b sb p =>
    refine ⟨?_, ?_, ?_, ?_, ?_, ?_, ?_, ?_, ?_⟩ <;>
      simp [initState, NodupKeys, mapKeys, sumBy]
  | step s op hs ih => exact stepOp_snd_inv ih op
  | env s b sb p hs ih =>
    exact ⟨ih.depNodup, ih.colNodup, ih.borNodup, ih.depSum, ih.colSum,
      ih.borSum, ih.lastAcc, ih.cum0, ih.borLast⟩

theorem foldedDebtSum_eq {s : State}
    (hz : ∀ p ∈ s.borrows, (p : Principal × BorrowRec).2.lastAccrued = 0) :
    foldedDebtSum s = .ok (sumBy BorrowRec.amount s.borrows) := by
  unfold foldedDebtSum
  have main : ∀ (l : List (Principal × BorrowRec)),
      (∀ p ∈ l, (p : Principal × BorrowRec).2.lastAccrued = 0) →
      l.foldr
        (fun p acc =>
          match unwrapPanic (calculateInterest s p.2.amount p.2.lastAccrued) with
          | Except.error f => Except.error f
          | Except.ok i =>
            match acc with
            | Except.error f => Except.error f
            | Except.ok rest => Except.ok (p.2.amount + i + rest))
        (Except.ok 0 : Except Failure Nat)
        = Except.ok (sumBy BorrowRec.amount l) := by
    intro l
    induction l with
    | nil =>
      intro _
      simp [sumBy]
    | cons hd tl ih =>
      intro hl
      have hhd : hd.2.lastAccrued = 0 := hl hd (List.mem_cons_self _ _)
      have htl := ih fun p hp => hl p (List.mem_cons_of_mem _ hp)
      simp [List.foldr_cons, hhd, calculateInterest_at_zero, unwrapPanic_ok,
        htl, sumBy]
  exact main s.borrows hz

/-- C4: in every state reachable from deployment by public calls, the sum
of deposit-record amounts equals `total-stx-deposits`, the sum of
collateral-record amounts equals `total-sbtc-collateral`, and the sum of
borrow principals folded forward to the current time by
`calculate-interest` is at most `total-stx-borrows` (in fact equal). -/
theorem reachable_sums_invariant {s : State} (h : Reachable s) :
    sumBy DepositRec.amount s.deposits = s.totalStxDeposits ∧
    sumBy id s.collateral = s.totalSbtcCollateral ∧
    ∃ n, foldedDebtSum s = .ok n ∧ n ≤ s.totalStxBorrows := by
  have inv := reachable_poolInv h
  exact ⟨inv.depSum, inv.colSum,
    ⟨sumBy BorrowRec.amount s.borrows, foldedDebtSum_eq inv.borLast,
      le_of_eq inv.borSum⟩⟩

theorem reachable_sums_invariant_witness :
    sumBy DepositRec.amount (initState (fun _ => 5) (fun _ => 5) 7).deposits
        = (initState (fun _ => 5) (fun _ => 5) 7).totalStxDeposits ∧
    sumBy id (initState (fun _ => 5) (fun _ => 5) 7).collateral
        = (initState (fun _ => 5) (fun _ => 5) 7).totalSbtcCollateral ∧
    ∃ n, foldedDebtSum (initState (fun _ => 5) (fun _ => 5) 7) = .ok n ∧
      n ≤ (initState (fun _ => 5) (fun _ => 5) 7).totalStxBorrows :=
  reachable_sums_invariant (Reachable.init _ _ _)

/-- C5: across any public call made from a reachable state, the cumulative
yield index never decreases (with the frozen clock it is in fact constant
at 0 on all reachable states). -/
theorem cumulative_yield_index_monotone {s : State} (h : Reachable s)
    (op : Op) :
    s.cumulativeYieldBips ≤ ((stepOp s op).2).cumulativeYieldBips := by
  have h1 := (reachable_poolInv h).cum0
  have h2 := (reachable_poolInv (Reachable.step s op h)).cum0
  omega

theorem cumulative_yield_index_monotone_witness :
    (initState (fun _ => 3) (fun _ => 3) 3).cumulativeYieldBips ≤
      ((stepOp (initState (fun _ => 3) (fun _ => 3) 3)
        (.repay 1)).2).cumulativeYieldBips :=
  cumulative_yield_index_monotone (Reachable.init _ _ _) (.repay 1)

/-- C3: whenever a public call returns anything other than `(ok true)` (an
`err` response or a runtime abort), the resulting state is exactly the
state before the call — the Clarity transactional boundary discards every
write of the failed call. -/
theorem error_results_leave_state_unchanged (s : State) (op : Op)
    (r : PubResult) (s' : State) (hr : stepOp s op = (r, s'))
    (he : r ≠ .ok true) : s' = s := by
  unfold stepOp publicCall at hr
  rcases hb : opBody op s with f | s1
  · rw [hb] at hr
    cases f with
    | err c =>
      cases hr
      rfl
    | abort =>
      cases hr
      rfl
  · rw [hb] at hr
    cases hr
    exact absurd rfl he

theorem error_results_leave_state_unchanged_witness :
    (stepOp (initState (fun _ => 0) (fun _ => 0) 0) (.depositStx 1 0)).2
      = initState (fun _ => 0) (fun _ => 0) 0 :=
  error_results_leave_state_unchanged
    (initState (fun _ => 0) (fun _ => 0) 0) (.depositStx 1 0)
    (stepOp (initState (fun _ => 0) (fun _ => 0) 0) (.depositStx 1 0)).1
    (stepOp (initState (fun _ => 0) (fun _ => 0) 0) (.depositStx 1 0)).2
    rfl (by decide)

/-- C10: on every reachable state the frozen time source makes interest
vanish: `get-current-time` is 0, `calculate-interest` returns 0 on every
stored borrow record, `accrue-interest` is a complete no-op, and `get-debt`
returns exactly the stored principal. -/
theorem frozen_clock_behavior {s : State} (h : Reachable s) :
    getCurrentTime = 0 ∧
    (∀ u r, mapGet s.borrows u = some r →
      calculateInterest s r.amount r.lastAccrued = .ok 0) ∧
    accrueInterest s = .ok s ∧
    (∀ u, getDebt s u
      = .ok (((mapGet s.borrows u).map BorrowRec.amount).getD 0)) := by
  have inv := reachable_poolInv h
  refine ⟨rfl, ?_, accrueInterest_eq_self inv.lastAcc, ?_⟩
  · intro u r hr
    have h0 : r.lastAccrued = 0 := inv.borLast _ (mapGet_mem hr)
    rw [h0]
    exact calculateInterest_at_zero s r.amount
  · intro u
    rcases hB : mapGet s.borrows u with _ | r
    · simp [getDebt, hB, getCurrentTime, calculateInterest_at_zero,
        unwrapPanic_ok]
    · have h0 : r.lastAccrued = 0 := inv.borLast _ (mapGet_mem hB)
      simp [getDebt, hB, h0, calculateInterest_at_zero, unwrapPanic_ok]

theorem frozen_clock_behavior_witness :
    accrueInterest (initState (fun _ => 0) (fun _ => 0) 0)
        = .ok (initState (fun _ => 0) (fun _ => 0) 0) ∧
    getDebt (initState (fun _ => 0) (fun _ => 0) 0) 1 = .ok 0 := by
  refine ⟨(frozen_clock_behavior (Reachable.init _ _ _)).2.2.1, ?_⟩
  have h4 := (frozen_clock_behavior (Reachable.init
    (fun _ => 0) (fun _ => 0) 0)).2.2.2 1
  simpa [initState, mapGet] using h4

/-- C1 evaluation: at `sYieldGap`, account 1 has pending yield 100, yet
`deposit-stx` succeeds while transferring only the deposit amount in (no
payout), and afterwards the pending yield reads 0 — the checkpoint was
advanced without settling the yield, which is therefore forfeited. -/
theorem deposit_forfeits_pending_yield :
    getPendingYield sYieldGap 1 = .ok 100 ∧
    (stepOp sYieldGap (.depositStx 1 1000)).1 = .ok true ∧
    getPendingYield (stepOp sYieldGap (.depositStx 1 1000)).2 1 = .ok 0 ∧
    (stepOp sYieldGap (.depositStx 1 1000)).2.stxBalances 1 = 0 ∧
    (stepOp sYieldGap (.depositStx 1 1000)).2.stxBalances contractPrincipal
      = sYieldGap.stxBalances contractPrincipal + 1000 := by
  refine ⟨by decide, by decide, by decide, by decide, by decide⟩

/-- C9 evaluation: the interest formula would yield exactly 1000 on
borrows of 10000 at the 10 percent rate over one year, but the frozen
clock (`get-current-time` is the constant 0) makes any positive elapsed
time unrepresentable: `accrue-interest` at the scenario state changes
nothing — `total-stx-borrows` and the yield index stay put. -/
theorem accrue_interest_scenario_frozen :
    sScenario.interestRatePercentage = 10 ∧
    sScenario.totalStxBorrows = 10000 ∧
    sScenario.totalStxDeposits = 10000 ∧
    10000 * sScenario.interestRatePercentage * ONE_YEAR_IN_SECS
        / (ONE_YEAR_IN_SECS * 100) = 1000 ∧
    getCurrentTime = 0 ∧
    accrueInterest sScenario = .ok sScenario := by
  refine ⟨rfl, rfl, rfl, by decide, rfl, accrueInterest_eq_self rfl⟩

/-- C2 counterexample: at `sStaleAccrual` the accrual routine aborts, so an
entry point that invoked it first could not succeed — yet `repay` succeeds
and mutates the aggregates, proving that `repay` does not invoke
`accrue-interest`. -/
theorem repay_skips_accrual_cex :
    accrueInterest sStaleAccrual = .error .abort ∧
    (stepOp sStaleAccrual (.repay 1)).1 = .ok true ∧
    (stepOp sStaleAccrual (.repay 1)).2.totalStxBorrows = 0 ∧
    (stepOp sStaleAccrual (.repay 1)).2.lastInterestAccrual = 5 := by
  refine ⟨by rfl, by decide, by decide, by decide⟩

/-- C7 counterexample: at `sPausedBoundary` the target has both records, a
positive price, and `current_owed * 100 ≥ collateral_value * threshold`
holds (with equality), yet `liquidate` does not succeed — it fails with
the pause error, refuting the claimed equivalence as stated. -/
theorem liquidate_iff_claim_cex :
    (mapGet sPausedBoundary.borrows 1).isSome = true ∧
    (mapGet sPausedBoundary.collateral 1).isSome = true ∧
    0 < sPausedBoundary.oraclePrice ∧
    100 * 100 ≥ 1 * sPausedBoundary.oraclePrice
        * sPausedBoundary.liquidationThresholdPercentage ∧
    (stepOp sPausedBoundary (.liquidate 2 1)).1 ≠ .ok true ∧
    (stepOp sPausedBoundary (.liquidate 2 1)).1 = .err ERR_PAUSED := by
  refine ⟨by decide, by decide, by decide, by decide, by decide, by decide⟩

theorem calculateInterest_stale_abort (s : State) (p : Nat) {la : Nat}
    (h : la ≠ 0) : calculateInterest s p la = .error .abort := by
  have hlt : ¬ la ≤ getCurrentTime := by
    simp only [getCurrentTime]
    omega
  simp [calculateInterest, csub, hlt]

/-- `repay` never touches `last-interest-accrual`: its behavior on a state
with that variable overwritten is the original behavior with the variable
carried through unchanged. -/
theorem repayBody_lastAccrual_comm (c : Principal) (s : State) (L : Nat) :
    repayBody c { s with lastInterestAccrual := L }
      = Except.map (fun t => { t with lastInterestAccrual := L })
          (repayBody c s) := by
  rcases hB : mapGet s.borrows c with _ | borrow
  · simp [repayBody, hB, Except.map]
  by_cases hp : s.paused
  · simp [repayBody, hB, hp, Except.map]
  by_cases hb0 : borrow.amount = 0
  · simp [repayBody, hB, hp, hb0, Except.map]
  by_cases hla : borrow.lastAccrued = 0
  swap
  · simp [repayBody, hB, hp, hb0, calculateInterest_stale_abort _ _ hla,
      unwrapPanic, Except.map]
  rcases heqT : stxTransfer borrow.amount c contractPrincipal
      s.stxBalances with _ | bal
  · simp [repayBody, hB, hp, hb0, hla, calculateInterest_at_zero,
      unwrapPanic_ok, heqT, Except.map]
  rcases hC : mapGet s.collateral c with _ | w
  · rcases heqNb : csub s.totalStxBorrows borrow.amount with f | nb
    · simp [repayBody, hB, hp, hb0, hla, calculateInterest_at_zero,
        unwrapPanic_ok, heqT, hC, heqNb, Except.map]
    · simp [repayBody, hB, hp, hb0, hla, calculateInterest_at_zero,
        unwrapPanic_ok, heqT, hC, heqNb, csub_zero, Except.map]
  · by_cases hw : 0 < w
    · rcases heqSb : sbtcTransfer w contractPrincipal c s.sbtcBalances
        with _ | sb
      · simp [repayBody, hB, hp, hb0, hla, calculateInterest_at_zero,
          unwrapPanic_ok, heqT, hC, hw, heqSb, Except.map]
      rcases heqNb : csub s.totalStxBorrows borrow.amount with f | nb
      · simp [repayBody, hB, hp, hb0, hla, calculateInterest_at_zero,
          unwrapPanic_ok, heqT, hC, hw, heqSb, heqNb, Except.map]
      rcases heqNc : csub s.totalSbtcCollateral w with f | nc
      · simp [repayBody, hB, hp, hb0, hla, calculateInterest_at_zero,
          unwrapPanic_ok, heqT, hC, hw, heqSb, heqNb, heqNc, Except.map]
      · simp [repayBody, hB, hp, hb0, hla, calculateInterest_at_zero,
          unwrapPanic_ok, heqT, hC, hw, heqSb, heqNb, heqNc, Except.map]
    · have hw0 : w = 0 := by omega
      rcases heqNb : csub s.totalStxBorrows borrow.amount with f | nb
      · simp [repayBody, hB, hp, hb0, hla, calculateInterest_at_zero,
          unwrapPanic_ok, heqT, hC, hw0, heqNb, Except.map]
      · simp [repayBody, hB, hp, hb0, hla, calculateInterest_at_zero,
          unwrapPanic_ok, heqT, hC, hw0, heqNb, csub_zero, Except.map]

/-- `liquidate` never touches `last-interest-accrual` either. -/
theorem liquidateBody_lastAccrual_comm (liq t : Principal) (s : State)
    (L : Nat) :
    liquidateBody liq t { s with lastInterestAccrual := L }
      = Except.map (fun u => { u with lastInterestAccrual := L })
          (liquidateBody liq t s) := by
  rcases hB : mapGet s.borrows t with _ | borrow
  · simp [liquidateBody, hB, Except.map]
  rcases hC : mapGet s.collateral t with _ | w
  · simp [liquidateBody, hB, hC, Except.map]
  by_cases hp : s.paused
  · simp [liquidateBody, hB, hC, hp, Except.map]
  by_cases hla : borrow.lastAccrued = 0
  swap
  · simp [liquidateBody, hB, hC, hp, calculateInterest_stale_abort _ _ hla,
      unwrapPanic, Except.map]
  by_cases hpz : s.oraclePrice = 0
  · simp [liquidateBody, hB, hC, hp, hla, calculateInterest_at_zero,
      unwrapPanic_ok, getSbtcStxPrice, hpz, Except.map]
  by_cases hth : borrow.amount * 100
      < w * s.oraclePrice * s.liquidationThresholdPercentage
  · simp [liquidateBody, hB, hC, hp, hla, calculateInterest_at_zero,
      unwrapPanic_ok, getSbtcStxPrice, hpz, hth, Except.map]
  rcases heqP : csub 100 s.liquidationPenaltyPercentage with f | hmp
  · simp [liquidateBody, hB, hC, hp, hla, calculateInterest_at_zero,
      unwrapPanic_ok, getSbtcStxPrice, hpz, hth, heqP, Except.map]
  rcases heqT : stxTransfer (borrow.amount * hmp / 100) liq
      contractPrincipal s.stxBalances with _ | bal
  · simp [liquidateBody, hB, hC, hp, hla, calculateInterest_at_zero,
      unwrapPanic_ok, getSbtcStxPrice, hpz, hth, heqP, heqT, Except.map]
  rcases heqSb : sbtcTransfer w contractPrincipal liq s.sbtcBalances
    with _ | sb
  · simp [liquidateBody, hB, hC, hp, hla, calculateInterest_at_zero,
      unwrapPanic_ok, getSbtcStxPrice, hpz, hth, heqP, heqT, heqSb,
      Except.map]
  rcases heqNb : csub s.totalStxBorrows borrow.amount with f | nb
  · simp [liquidateBody, hB, hC, hp, hla, calculateInterest_at_zero,
      unwrapPanic_ok, getSbtcStxPrice, hpz, hth, heqP, heqT, heqSb, heqNb,
      Except.map]
  rcases heqNc : csub s.totalSbtcCollateral w with f | nc
  · simp [liquidateBody, hB, hC, hp, hla, calculateInterest_at_zero,
      unwrapPanic_ok, getSbtcStxPrice, hpz, hth, heqP, heqT, heqSb, heqNb,
      heqNc, Except.map]
  · simp [liquidateBody, hB, hC, hp, hla, calculateInterest_at_zero,
      unwrapPanic_ok, getSbtcStxPrice, hpz, hth, heqP, heqT, heqSb, heqNb,
      heqNc, Except.map]

/-- C2 amended: only `deposit-stx`, `withdraw-stx` and `borrow-stx` invoke
the accrual routine — they do so after their precondition checks and
initial record reads but before any state mutation, so a state on which
`accrue-interest` aborts (any nonzero `last-interest-accrual` under the
frozen clock) aborts them with no state change; `repay` and `liquidate`
never invoke it — their entire behavior is independent of
`last-interest-accrual`, the variable only `accrue-interest` reads. -/
theorem accrual_invocation_amended :
    (∀ (s : State) (c : Principal) (a : Nat),
      ¬ s.paused → a ≠ 0 → s.lastInterestAccrual ≠ 0 →
      stepOp s (.depositStx c a) = (.aborted, s)) ∧
    (∀ (s : State) (c : Principal) (a : Nat) (dep : DepositRec),
      mapGet s.deposits c = some dep → ¬ s.paused → a ≠ 0 →
      ¬ dep.amount < a → s.lastInterestAccrual ≠ 0 →
      stepOp s (.withdrawStx c a) = (.aborted, s)) ∧
    (∀ (s : State) (c : Principal) (ca aStx : Nat),
      ¬ s.paused → aStx ≠ 0 →
      (0 < ca ∨ 0 < (mapGet s.collateral c).getD 0) →
      s.lastInterestAccrual ≠ 0 →
      stepOp s (.borrowStx c ca aStx) = (.aborted, s)) ∧
    (∀ (s : State) (c : Principal) (L : Nat),
      stepOp { s with lastInterestAccrual := L } (.repay c)
        = ((stepOp s (.repay c)).1,
            { (stepOp s (.repay c)).2 with lastInterestAccrual := L })) ∧
    (∀ (s : State) (liq t : Principal) (L : Nat),
      stepOp { s with lastInterestAccrual := L } (.liquidate liq t)
        = ((stepOp s (.liquidate liq t)).1,
            { (stepOp s (.liquidate liq t)).2 with
              lastInterestAccrual := L })) := by
  refine ⟨?_, ?_, ?_, ?_, ?_⟩
  · intro s c a hp ha hl
    unfold stepOp publicCall opBody
    simp [depositStxBody, hp, ha, accrueInterest_abort hl, unwrapPanic]
  · intro s c a dep hD hp ha hlt hl
    unfold stepOp publicCall opBody
    simp [withdrawStxBody, hD, hp, ha, hlt, accrueInterest_abort hl,
      unwrapPanic]
  · intro s c ca aStx hp ha hcol hl
    have h3 : ¬ (ca = 0 ∧ (mapGet s.collateral c).getD 0 = 0) := by
      rcases hcol with h | h <;> omega
    unfold stepOp publicCall opBody
    simp [borrowStxBody, hp, ha, h3, accrueInterest_abort hl, unwrapPanic]
  · intro s c L
    show publicCall (repayBody c) { s with lastInterestAccrual := L }
      = ((publicCall (repayBody c) s).1,
          { (publicCall (repayBody c) s).2 with lastInterestAccrual := L })
    unfold publicCall
    rw [repayBody_lastAccrual_comm]
    rcases hbody : repayBody c s with f | t
    · cases f <;> simp [Except.map]
    · simp [Except.map]
  · intro s liq t L
    show publicCall (liquidateBody liq t) { s with lastInterestAccrual := L }
      = ((publicCall (liquidateBody liq t) s).1,
          { (publicCall (liquidateBody liq t) s).2 with
            lastInterestAccrual := L })
    unfold publicCall
    rw [liquidateBody_lastAccrual_comm]
    rcases hbody : liquidateBody liq t s with f | u
    · cases f <;> simp [Except.map]
    · simp [Except.map]

theorem accrual_invocation_amended_witness :
    stepOp { initState (fun _ => 9) (fun _ => 9) 9 with
        lastInterestAccrual := 5 } (.depositStx 1 5)
      = (.aborted, { initState (fun _ => 9) (fun _ => 9) 9 with
          lastInterestAccrual := 5 }) ∧
    stepOp { initState (fun _ => 9) (fun _ => 9) 9 with
        lastInterestAccrual := 5, deposits := [(1, ⟨50, 0⟩)],
        totalStxDeposits := 50 } (.withdrawStx 1 5)
      = (.aborted, { initState (fun _ => 9) (fun _ => 9) 9 with
          lastInterestAccrual := 5, deposits := [(1, ⟨50, 0⟩)],
          totalStxDeposits := 50 }) ∧
    stepOp { initState (fun _ => 9) (fun _ => 9) 9 with
        lastInterestAccrual := 5 } (.borrowStx 1 1 5)
      = (.aborted, { initState (fun _ => 9) (fun _ => 9) 9 with
          lastInterestAccrual := 5 }) ∧
    stepOp { initState (fun _ => 9) (fun _ => 9) 9 with
        lastInterestAccrual := 7 } (.repay 1)
      = ((stepOp (initState (fun _ => 9) (fun _ => 9) 9) (.repay 1)).1,
          { (stepOp (initState (fun _ => 9) (fun _ => 9) 9) (.repay 1)).2 with
            lastInterestAccrual := 7 }) ∧
    stepOp { initState (fun _ => 9) (fun _ => 9) 9 with
        lastInterestAccrual := 7 } (.liquidate 2 1)
      = ((stepOp (initState (fun _ => 9) (fun _ => 9) 9) (.liquidate 2 1)).1,
          { (stepOp (initState (fun _ => 9) (fun _ => 9) 9)
              (.liquidate 2 1)).2 with lastInterestAccrual := 7 }) := by
  refine ⟨accrual_invocation_amended.1 _ 1 5 (by decide) (by decide)
      (by decide),
    accrual_invocation_amended.2.1 _ 1 5 ⟨50, 0⟩ (by rfl) (by decide)
      (by decide) (by decide) (by decide),
    accrual_invocation_amended.2.2.1 _ 1 1 5 (by decide) (by decide)
      (Or.inl (by decide)) (by decide),
    accrual_invocation_amended.2.2.2.1
      (initState (fun _ => 9) (fun _ => 9) 9) 1 7,
    accrual_invocation_amended.2.2.2.2
      (initState (fun _ => 9) (fun _ => 9) 9) 2 1 7⟩

/-- C6: for an account with no debt, existing collateral of 10, oracle
price 100 and the 70 percent LTV (the code stores the ratio as the percent
value 70 rather than in basis points), the admission limit `max-borrow`
evaluates to 700; borrowing 700 succeeds and borrowing 701 fails with the
borrow-limit error. -/
theorem borrow_boundary (s : State) (u : Principal)
    (hp : ¬ s.paused) (hl : s.lastInterestAccrual = 0)
    (hB : mapGet s.borrows u = none)
    (hC : mapGet s.collateral u = some 10)
    (hpr : s.oraclePrice = 100) (hltv : s.ltvPercentage = 70)
    (hbal : 700 ≤ s.stxBalances contractPrincipal)
    (hu : u ≠ contractPrincipal) :
    maxBorrow 10 s.oraclePrice s.ltvPercentage = 700 ∧
    (stepOp s (.borrowStx u 0 700)).1 = .ok true ∧
    (stepOp s (.borrowStx u 0 701)).1 = .err ERR_EXCEEDED_MAX_BORROW := by
  have hcu : contractPrincipal ≠ u := Ne.symm hu
  have hnl : ¬ s.stxBalances contractPrincipal < 700 := by omega
  refine ⟨by rw [hpr, hltv]; decide, ?_, ?_⟩
  · show (publicCall (borrowStxBody u 0 700) s).1 = .ok true
    unfold publicCall
    simp [borrowStxBody, hp, hB, hC, hpr, hltv, accrueInterest_eq_self hl,
      unwrapPanic_ok, getSbtcStxPrice, getCurrentTime,
      calculateInterest_at_zero, getContractBalance, maxBorrow, stxTransfer,
      hcu, hnl]
  · show (publicCall (borrowStxBody u 0 701) s).1
      = .err ERR_EXCEEDED_MAX_BORROW
    unfold publicCall
    simp [borrowStxBody, hp, hB, hC, hpr, hltv, accrueInterest_eq_self hl,
      unwrapPanic_ok, getSbtcStxPrice, getCurrentTime,
      calculateInterest_at_zero, getContractBalance, maxBorrow]

theorem borrow_boundary_witness :
    maxBorrow 10 sBoundary.oraclePrice sBoundary.ltvPercentage = 700 ∧
    (stepOp sBoundary (.borrowStx 3 0 700)).1 = .ok true ∧
    (stepOp sBoundary (.borrowStx 3 0 701)).1
      = .err ERR_EXCEEDED_MAX_BORROW :=
  borrow_boundary sBoundary 3 (by decide) rfl rfl (by decide) rfl rfl
    (by decide) (by decide)

/-- C7 amended: for a target with a borrow record whose `last-accrued`
matches the frozen clock and a positive collateral record, a positive
oracle price, an unpaused pool, a penalty of at most 100, a positive
discounted repay amount, a liquidator distinct from the pool with enough
STX, the pool holding the collateral, and aggregates covering the
position: `liquidate` succeeds exactly when
`current_owed * 100 >= collateral_value * threshold_percent`, and fails
with the cannot-liquidate error strictly below that boundary. -/
theorem liquidation_threshold_amended (s : State) (liq u : Principal)
    (b : BorrowRec) (w : Nat)
    (hB : mapGet s.borrows u = some b) (hC : mapGet s.collateral u = some w)
    (hla : b.lastAccrued = 0) (hp : ¬ s.paused) (hpr : s.oraclePrice ≠ 0)
    (hrp : b.amount * (100 - s.liquidationPenaltyPercentage) / 100 ≠ 0)
    (hpen : s.liquidationPenaltyPercentage ≤ 100)
    (hliq : liq ≠ contractPrincipal)
    (hbal : b.amount * (100 - s.liquidationPenaltyPercentage) / 100
      ≤ s.stxBalances liq)
    (hw : w ≠ 0) (hsb : w ≤ s.sbtcBalances contractPrincipal)
    (hnb : b.amount ≤ s.totalStxBorrows) (hnc : w ≤ s.totalSbtcCollateral) :
    (w * s.oraclePrice * s.liquidationThresholdPercentage ≤ b.amount * 100 →
      (stepOp s (.liquidate liq u)).1 = .ok true) ∧
    (b.amount * 100 < w * s.oraclePrice * s.liquidationThresholdPercentage →
      (stepOp s (.liquidate liq u)).1 = .err ERR_CANNOT_BE_LIQUIDATED) := by
  have hcl : contractPrincipal ≠ liq := Ne.symm hliq
  have hbal' : ¬ s.stxBalances liq
      < b.amount * (100 - s.liquidationPenaltyPercentage) / 100 := by omega
  have hsb' : ¬ s.sbtcBalances contractPrincipal < w := by omega
  constructor
  · intro hth
    have hth' : ¬ b.amount * 100
        < w * s.oraclePrice * s.liquidationThresholdPercentage := by omega
    show (publicCall (liquidateBody liq u) s).1 = .ok true
    unfold publicCall
    simp [liquidateBody, hB, hC, hla, hp, hpr, unwrapPanic_ok,
      calculateInterest_at_zero, getSbtcStxPrice, hth', csub, hpen,
      stxTransfer, sbtcTransfer, hrp, hliq, hcl, hbal', hw, hsb', hnb, hnc]
  · intro hth
    show (publicCall (liquidateBody liq u) s).1
      = .err ERR_CANNOT_BE_LIQUIDATED
    unfold publicCall
    simp [liquidateBody, hB, hC, hla, hp, hpr, unwrapPanic_ok,
      calculateInterest_at_zero, getSbtcStxPrice, hth]

theorem liquidation_threshold_amended_witness :
    (stepOp sBoundaryLiquid (.liquidate 2 1)).1 = .ok true ∧
    (stepOp sBelowBoundary (.liquidate 2 1)).1
      = .err ERR_CANNOT_BE_LIQUIDATED :=
  ⟨(liquidation_threshold_amended sBoundaryLiquid 2 1 ⟨100, 0⟩ 1
      rfl rfl rfl (by decide) (by decide) (by decide) (by decide)
      (by decide) (by decide) (by decide) (by decide) (by decide)
      (by decide)).1 (by decide),
   (liquidation_threshold_amended sBelowBoundary 2 1 ⟨99, 0⟩ 1
      rfl rfl rfl (by decide) (by decide) (by decide) (by decide)
      (by decide) (by decide) (by decide) (by decide) (by decide)
      (by decide)).2 (by decide)⟩

theorem csub_self (a : Nat) : csub a a = .ok 0 := by
  simp [csub]

set_option maxRecDepth 8000 in
/-- C8: from any unpaused state with the accrual clock at its frozen value
and a caller distinct from the pool holding at least 1000 STX, depositing
1000 and immediately withdrawing 1000 both succeed, the pending yield
computed by the withdrawal is 0, the withdrawal transfers exactly 1000
back to the depositor, and `total-stx-deposits` returns to its value
before the deposit. -/
theorem deposit_withdraw_round_trip (s : State) (c : Principal)
    (hp : ¬ s.paused) (hl : s.lastInterestAccrual = 0)
    (hc : c ≠ contractPrincipal) (hbal : 1000 ≤ s.stxBalances c) :
    (stepOp s (.depositStx c 1000)).1 = .ok true ∧
    (stepOp (stepOp s (.depositStx c 1000)).2 (.withdrawStx c 1000)).1
      = .ok true ∧
    getPendingYield (stepOp s (.depositStx c 1000)).2 c = .ok 0 ∧
    (stepOp (stepOp s (.depositStx c 1000)).2
        (.withdrawStx c 1000)).2.stxBalances c
      = (stepOp s (.depositStx c 1000)).2.stxBalances c + 1000 ∧
    (stepOp (stepOp s (.depositStx c 1000)).2
        (.withdrawStx c 1000)).2.totalStxDeposits
      = s.totalStxDeposits := by
  have hcc : contractPrincipal ≠ c := Ne.symm hc
  have hb' : ¬ s.stxBalances c < 1000 := by omega
  have hacc := accrueInterest_eq_self hl
  have hT1 : stxTransfer 1000 c contractPrincipal s.stxBalances
      = some fun p =>
          if p = c then s.stxBalances c - 1000
          else if p = contractPrincipal then
            s.stxBalances contractPrincipal + 1000
          else s.stxBalances p := by
    simp [stxTransfer, hc, hb']
  have h1 : stepOp s (.depositStx c 1000)
      = (.ok true,
         { s with
           stxBalances := fun p =>
             if p = c then s.stxBalances c - 1000
             else if p = contractPrincipal then
               s.stxBalances contractPrincipal + 1000
             else s.stxBalances p,
           deposits := (mapSet s.deposits c
             ⟨(Option.map DepositRec.amount (mapGet s.deposits c)).getD 0
                + 1000,
              s.cumulativeYieldBips⟩),
           totalStxDeposits := s.totalStxDeposits + 1000 }) := by
    show publicCall (depositStxBody c 1000) s = _
    unfold publicCall
    simp [depositStxBody, hp, hacc, unwrapPanic_ok, hT1]
  have hge : ¬ ((Option.map DepositRec.amount (mapGet s.deposits c)).getD 0
      + 1000 < 1000) := by omega
  have hct : (1000 : Nat) ≤ s.totalStxDeposits + 1000 := by omega
  have hlq : ¬ s.stxBalances contractPrincipal + 1000 < 1000 := by omega
  refine ⟨?_, ?_, ?_, ?_, ?_⟩
  · rw [h1]
  · rw [h1]
    unfold stepOp publicCall opBody
    by_cases hz : (Option.map DepositRec.amount (mapGet s.deposits c)).getD 0
        = 0 <;>
      simp [withdrawStxBody, mapGet_mapSet_self, hp, hl, hge, hz,
        accrueInterest, getCurrentTime, unwrapPanic, getPendingYield,
        csub_self, csub, hct, hlq, getContractBalance, stxTransfer, hcc, hc]
  · rw [h1]
    simp [getPendingYield, mapGet_mapSet_self, csub_self]
  · rw [h1]
    unfold stepOp publicCall opBody
    by_cases hz : (Option.map DepositRec.amount (mapGet s.deposits c)).getD 0
        = 0 <;>
      simp [withdrawStxBody, mapGet_mapSet_self, hp, hl, hge, hz,
        accrueInterest, getCurrentTime, unwrapPanic, getPendingYield,
        csub_self, csub, hct, hlq, getContractBalance, stxTransfer, hcc, hc]
  · rw [h1]
    unfold stepOp publicCall opBody
    by_cases hz : (Option.map DepositRec.amount (mapGet s.deposits c)).getD 0
        = 0 <;>
      simp [withdrawStxBody, mapGet_mapSet_self, hp, hl, hge, hz,
        accrueInterest, getCurrentTime, unwrapPanic, getPendingYield,
        csub_self, csub, hct, hlq, getContractBalance, stxTransfer, hcc, hc]

theorem deposit_withdraw_round_trip_witness :
    (stepOp (initState (fun _ => 2000) (fun _ => 0) 0)
        (.depositStx 1 1000)).1 = .ok true ∧
    (stepOp (stepOp (initState (fun _ => 2000) (fun _ => 0) 0)
        (.depositStx 1 1000)).2 (.withdrawStx 1 1000)).1 = .ok true ∧
    getPendingYield (stepOp (initState (fun _ => 2000) (fun _ => 0) 0)
        (.depositStx 1 1000)).2 1 = .ok 0 ∧
    (stepOp (stepOp (initState (fun _ => 2000) (fun _ => 0) 0)
        (.depositStx 1 1000)).2 (.withdrawStx 1 1000)).2.stxBalances 1
      = (stepOp (initState (fun _ => 2000) (fun _ => 0) 0)
          (.depositStx 1 1000)).2.stxBalances 1 + 1000 ∧
    (stepOp (stepOp (initState (fun _ => 2000) (fun _ => 0) 0)
        (.depositStx 1 1000)).2 (.withdrawStx 1 1000)).2.totalStxDeposits
      = (initState (fun _ => 2000) (fun _ => 0) 0).totalStxDeposits :=
  deposit_withdraw_round_trip (initState (fun _ => 2000) (fun _ => 0) 0) 1
    (by decide) rfl (by decide) (by decide)
